import Mathlib

/-!
# crispony/requests: retry orchestration and task execution

A shallow embedding of `Client.Request` and the deferred function of `Client.request`
(src/requests.go), of `connPool.taskMain`, `connecotr.httpReq`, `connPool.rwMain` and
`connecotr.CloseWithError` (src/conn.go), of the SOCKS5 address codec `WriteUdpAddr` and
`ReadUdpAddr` (src/socks5.go), and of `orderMap` (src/body.go).

Effects that the Go code performs on the outside world (running an attempt,
calling a callback, closing a connection, waiting in a `select`) are recorded in
explicit traces; the outcome of every `select` is an input of the model, so a
statement quantified over the inputs covers every way the race can go.
-/

namespace Requests

/-! ## Error values -/

/-- Go `error` values that occur in the modelled code. `wrap` and `wrapErr` stand for
`tools.WrapError(base, note)` with a string note and with an error note. -/
inductive GoError where
  | new (msg : String)
  | errFatal
  | errNoErr
  | deadlineExceeded
  | canceled
  | wrap (base : GoError) (note : String)
  | wrapErr (base : GoError) (note : GoError)
  deriving DecidableEq, Repr

/-- The test `errors.Is(err, errFatal)`: the sentinel itself, or a `tools.WrapError`
chain whose base is the sentinel. -/
def GoError.isFatal : GoError → Bool
  | .errFatal => true
  | .wrap base _ => base.isFatal
  | .wrapErr base _ => base.isFatal
  | _ => false

/-! ## Client.Request (src/requests.go, lines 221-253) -/

/-- What one call of `Client.request` leaves behind: the fresh `*Response`, the error,
and the value of `option.once` after the call (set by `newBody` when the body is an
`io.Reader`). -/
structure Attempt (ρ : Type) where
  response : ρ
  err : Option GoError
  once : Bool

/-- What `Client.Request` returns, together with the attempts it made, in order, and
the state of the outside world afterwards. -/
structure RequestResult (ρ σ : Type) where
  response : Option ρ
  err : Option GoError
  attempts : List (Attempt ρ)
  world : σ

/-- The exit test of the retry loop:
`err == nil || errors.Is(err, errFatal) || option.once`. -/
def Attempt.stops {ρ : Type} (a : Attempt ρ) : Bool :=
  match a.err with
  | none => true
  | some e => e.isFatal || a.once

/-- The loop `for maxRetries := 0; maxRetries <= optionBak.MaxRetries; maxRetries++`.
`i` is the counter `maxRetries`, `resp` and `err` are the named results as they stand;
`request w u` runs `obj.request` on a copy of the option with a clone of the URL `u`
in world `w`. The counter is an unbounded integer: a Go `int` counter reaches every
value up to `MaxRetries + 1` without wrapping unless `MaxRetries` is the largest `int`.
The first argument bounds the number of iterations; `Client.Request` passes enough
(see `retryLoop_fuel`). -/
def Client.retryLoop {ρ σ υ : Type} (request : σ → υ → Attempt ρ × σ) (u : υ)
    (MaxRetries : Int) : Nat → Int → Option ρ → Option GoError → σ → RequestResult ρ σ
  | 0, _, resp, err, w => ⟨resp, err, [], w⟩
  | fuel + 1, i, resp, err, w =>
    if i ≤ MaxRetries then
      let out := request w u
      if out.1.stops then
        ⟨some out.1.response, out.1.err, [out.1], out.2⟩
      else
        let r := Client.retryLoop request u MaxRetries fuel (i + 1)
          (some out.1.response) out.1.err out.2
        ⟨r.response, r.err, out.1 :: r.attempts, r.world⟩
    else ⟨resp, err, [], w⟩

/-- The part of the client and of the call that `Client.Request` reads before the
loop: `obj.closed`, `optionBak.Url`, the result of `url.Parse(href)`, and
`optionBak.MaxRetries`. -/
structure Call (υ : Type) where
  closed : Bool
  optionUrl : Option υ
  parsed : Except GoError υ
  MaxRetries : Int

/-- The URL the attempts use: `optionBak.Url`, or else `url.Parse(href)`. -/
def Call.uhref {υ : Type} (c : Call υ) : Except GoError υ :=
  match c.optionUrl with
  | some u => .ok u
  | none => c.parsed

/-- The method `Client.Request`. -/
def Client.Request {ρ σ υ : Type} (c : Call υ) (request : σ → υ → Attempt ρ × σ)
    (w : σ) : RequestResult ρ σ :=
  if c.closed then ⟨none, some (.new "client is closed"), [], w⟩
  else
    match c.uhref with
    | .error e => ⟨none, some (.wrap e "url parse error"), [], w⟩
    | .ok u => Client.retryLoop request u c.MaxRetries (c.MaxRetries + 1).toNat 0 none none w

/-! ## connecotr.httpReq and connPool.taskMain (src/conn.go, lines 49-150) -/

/-- A response body: a raw body handed over by the executor, `http.NoBody`, or the
`wrapBody` decorator around one of these. -/
inductive Body where
  | raw (id : Nat)
  | noBody
  | wrapped (rawBody : Body)
  deriving DecidableEq, Repr

/-- The fields of `http.Response` that the code reads. -/
structure HttpResponse where
  StatusCode : Int
  Body : Option Body
  deriving DecidableEq, Repr

/-- What `Conn.DoRequest` returns: the response (or nil), whether the body-done context
is non-nil, and the error (or nil). -/
structure DoRequestResult where
  response : Option HttpResponse
  bodyCtx : Bool
  err : Option GoError
  deriving DecidableEq, Repr

/-- The part of `task.reqCtx` that `taskMain` writes and the failure callback receives. -/
structure ReqCtx where
  response : Option HttpResponse
  err : Option GoError
  deriving DecidableEq, Repr

/-- The task as `taskMain` finds it: the two optional callbacks of
`task.reqCtx.option` (for the logger only whether it is set), and the three flags. -/
structure ReqTask where
  ErrCallBack : Option (ReqCtx → Option GoError)
  Logger : Bool
  enableRetry : Bool
  isNotice : Bool
  disRetry : Bool

/-- The case taken by the second `select` of `taskMain`, with the cause read there. -/
inductive HeaderSelect where
  | force (cause : GoError)
  | headerTimeout
  | taskDone (cause : GoError)
  | done
  deriving DecidableEq, Repr

/-- The case taken by the `select` that waits for the body in the deferred function. -/
inductive BodySelect where
  | force (cause : GoError)
  | reqDone (cause : GoError)
  | bodyDone (cause : GoError)
  deriving DecidableEq, Repr

/-- The case taken by the inner `select`, reached for status 101 only. -/
inductive UpgradeSelect where
  | force (cause : GoError)
  | bodyDone (cause : GoError)
  deriving DecidableEq, Repr

/-- How far `httpReq`, which runs beside `taskMain`, has come when the second `select`
takes a case other than `done` and the deferred function runs: `DoRequest` has not
returned; line 63 has stored the response and the body-done context; or line 65 has
wrapped the body as well. -/
inductive Stored where
  | nothing
  | response
  | wrapped
  deriving DecidableEq, Repr

/-- Everything the outside world decides during one run of `taskMain`:
`forceAtEntry` is `context.Cause(conn.forceCtx)` when `conn.forceCtx` is already done
at the first `select` (nil when the `default` case runs); `doRequest` is what the
executor returns; `taskCause` is `context.Cause(task.ctx)` as read in the `done` case;
`header`, `body` and `upgrade` are the cases the later `select`s take when they are
reached; `stored` says what `httpReq` has put into the task when `header` is a case
other than `done`. -/
structure Schedule where
  forceAtEntry : Option GoError
  doRequest : DoRequestResult
  header : HeaderSelect
  taskCause : Option GoError
  body : BodySelect
  upgrade : UpgradeSelect
  stored : Stored := .nothing
  deriving DecidableEq, Repr

/-- The observable steps of `taskMain` and `rwMain`, in the order they happen. -/
inductive Effect where
  | startExecutor
  | logger
  | errCallBack (e : GoError)
  | taskCnl (cause : GoError)
  | waitBody
  | waitUpgrade
  | closeConn (cause : GoError)
  | totalAdd (delta : Int)
  | registryDel
  | poolForceCnl (cause : GoError)
  deriving DecidableEq, Repr

/-- The method `connecotr.wrapBody`, on the response. -/
def wrapBody (r : HttpResponse) : HttpResponse :=
  { r with Body := some (.wrapped (r.Body.getD .noBody)) }

/-- The method `connecotr.httpReq`: the fields it stores into the task, and the
error it returns. -/
structure HttpReqResult where
  response : Option HttpResponse
  bodyCtx : Bool
  err : Option GoError
  deriving DecidableEq, Repr

/-- The method `connecotr.httpReq`. -/
def httpReq (d : DoRequestResult) : HttpReqResult where
  response := d.response.map wrapBody
  bodyCtx := d.bodyCtx
  err := d.err.map fun e => .wrap e "roundTrip error"

/-- The state of `taskMain` between its body and its deferred function, and at its
end: the named result `err`, the fields of the task, and the steps so far. -/
structure TaskState where
  err : Option GoError
  reqCtx : ReqCtx
  bodyCtx : Bool
  enableRetry : Bool
  isNotice : Bool
  disRetry : Bool
  trace : List Effect
  deriving DecidableEq, Repr

/-- The error of lines 135-138: `context.Cause(task.ctx)`, or the generic error when
that is nil. -/
def nilResponseErr (taskCause : Option GoError) : GoError :=
  taskCause.getD (.new "body done response is nil")

/-- The response and the body-done context that the task holds when the second `select`
takes a case other than `done`: what `httpReq` has stored by then. -/
def Schedule.early (s : Schedule) : Option HttpResponse × Bool :=
  match s.stored with
  | .nothing => (none, false)
  | .response => (s.doRequest.response, s.doRequest.bodyCtx)
  | .wrapped => ((httpReq s.doRequest).response, (httpReq s.doRequest).bodyCtx)

/-- The body of `taskMain` (lines 116-149), up to its `return`. The statement
`go conn.httpReq(task, done)` drops the error that `httpReq` returns; what `httpReq`
stored into the task is read in the `done` case. In the other cases of the second
`select` the task holds what `httpReq` has stored so far (`Schedule.early`); at the first
`select` the executor has not been started. -/
def taskMain.phaseOne (task : ReqTask) (s : Schedule) : TaskState :=
  match s.forceAtEntry with
  | some cause =>
    { err := some cause, reqCtx := ⟨none, none⟩, bodyCtx := false,
      enableRetry := true, isNotice := true, disRetry := task.disRetry, trace := [] }
  | none =>
    let st : TaskState :=
      { err := none, reqCtx := ⟨s.early.1, none⟩, bodyCtx := s.early.2,
        enableRetry := task.enableRetry, isNotice := task.isNotice,
        disRetry := task.disRetry, trace := [.startExecutor] }
    match s.header with
    | .force cause => { st with err := some (.wrap cause "taskMain delete ctx error: ") }
    | .headerTimeout => { st with err := some (.new "ResponseHeaderTimeout error: ") }
    | .taskDone cause => { st with err := some cause }
    | .done =>
      let h := httpReq s.doRequest
      let err : Option GoError :=
        if h.response = none then
          some (nilResponseErr s.taskCause)
        else none
      { st with
        err := err, reqCtx := ⟨h.response, none⟩, bodyCtx := h.bodyCtx,
        trace := st.trace ++ (if task.Logger then [.logger] else []) }

/-- The replacement error, if any, that the failure callback of the task returns when
it is shown `reqCtx` with `reqCtx.err = e`; nil when no callback is configured. -/
def ReqTask.veto (t : ReqTask) (reqCtx : ReqCtx) (e : GoError) : Option GoError :=
  t.ErrCallBack.bind fun cb => cb { reqCtx with err := some e }

/-- First step of the deferred function (lines 75-82): the failure callback. -/
def taskMain.callBack (task : ReqTask) (st : TaskState) : TaskState :=
  match st.err, task.ErrCallBack with
  | some e, some cb =>
    let reqCtx : ReqCtx := { st.reqCtx with err := some e }
    match cb reqCtx with
    | some err2 =>
      { st with reqCtx := reqCtx, isNotice := false, disRetry := true, err := some err2,
                trace := st.trace ++ [.errCallBack e] }
    | none => { st with reqCtx := reqCtx, trace := st.trace ++ [.errCallBack e] }
  | _, _ => st

/-- Second step of the deferred function (lines 83-87): `task.cnl`. -/
def taskMain.cancelTask (st : TaskState) : TaskState :=
  { st with trace := st.trace ++ [.taskCnl (st.err.getD .errNoErr)] }

/-- The value of `err` after `if cause != tools.ErrNoErr then err = cause`. -/
def causeErr (err : Option GoError) (cause : GoError) : Option GoError :=
  if cause ≠ .errNoErr then some cause else err

/-- The inner `select` (lines 97-104). -/
def taskMain.upgradeWait (s : Schedule) (st : TaskState) : TaskState :=
  let st2 : TaskState := { st with trace := st.trace ++ [.waitUpgrade] }
  match s.upgrade with
  | .force cause => { st2 with err := some cause }
  | .bodyDone cause => { st2 with err := causeErr st2.err cause }

/-- Third step of the deferred function (lines 88-111): the wait for the body, under
the guard `err == nil && response != nil && response.Body != nil && bodyCtx != nil`. -/
def taskMain.bodyWait (s : Schedule) (st : TaskState) : TaskState :=
  match st.err, st.reqCtx.response with
  | none, some r =>
    if r.Body.isSome && st.bodyCtx then
      let st1 : TaskState := { st with trace := st.trace ++ [.waitBody] }
      match s.body with
      | .force cause => { st1 with err := some cause }
      | .reqDone cause =>
        let st2 : TaskState := { st1 with err := causeErr st1.err cause }
        if st2.err.isNone && r.StatusCode == 101 then taskMain.upgradeWait s st2 else st2
      | .bodyDone cause => { st1 with err := causeErr st1.err cause }
    else st
  | _, _ => st

/-- The steps of lines 112-114: `conn.CloseWithError` with the wrapped error when
`err != nil`, nothing otherwise. -/
def closeSteps : Option GoError → List Effect
  | some e => [.closeConn (.wrap e "taskMain close with error")]
  | none => []

/-- Last step of the deferred function (lines 112-114): close the connection. -/
def taskMain.closeOnError (st : TaskState) : TaskState :=
  { st with trace := st.trace ++ closeSteps st.err }

/-- The method `connPool.taskMain`: its body, then its deferred function. -/
def taskMain (task : ReqTask) (s : Schedule) : TaskState :=
  taskMain.closeOnError (taskMain.bodyWait s (taskMain.cancelTask
    (taskMain.callBack task (taskMain.phaseOne task s))))

/-! ## connPool.rwMain (src/conn.go, lines 188-216) -/

/-- What the `select` of the worker loop receives: the force-close of the connection,
or a value from `obj.tasks` (nil, or a task together with the schedule of its run). -/
inductive WorkerEvent where
  | force
  | task (t : Option (ReqTask × Schedule))

/-- The loop of `rwMain` over the events it receives: whether the loop has returned
(it has not when it is still blocked in `select` after the last event), and the runs
of `taskMain` it made. -/
def rwMain.loop : List WorkerEvent → Bool × List TaskState
  | [] => (false, [])
  | .force :: _ => (true, [])
  | .task none :: _ => (true, [])
  | .task (some ts) :: rest =>
    let r := taskMain ts.1 ts.2
    if r.err.isSome then (true, [r])
    else ((rwMain.loop rest).1, r :: (rwMain.loop rest).2)

/-- The method `connPool.close`. -/
def connPool.close (err : GoError) : List Effect :=
  [.registryDel, .poolForceCnl (.wrap err "connPool close")]

/-- The deferred function of `rwMain` (lines 190-196). `total` is the counter when
`obj.total.Add(-1)` runs; `others` is what other workers add to the counter between
that and `obj.total.Load()` (0 for a worker that runs alone). The result is the value
that `obj.total.Load()` returns, and the steps. -/
def rwMain.deferred (total others : Int) : Int × List Effect :=
  (total - 1 + others,
    [.closeConn (.new "connPool rwMain close"), .totalAdd (-1)] ++
      (if total - 1 + others ≤ 0 then connPool.close (.new "conn pool close") else []))

/-- The result of `rwMain`: whether it has returned, the counter `total` as the worker
saw it last, the runs of `taskMain`, and all steps in order. -/
structure WorkerResult where
  exited : Bool
  total : Int
  runs : List TaskState
  trace : List Effect

/-- The method `connPool.rwMain`; `total` and `others` as in `rwMain.deferred`. -/
def rwMain (total others : Int) (events : List WorkerEvent) : WorkerResult :=
  let l := rwMain.loop events
  let steps := (l.2.map fun r => r.trace).flatten
  if l.1 then
    ⟨true, (rwMain.deferred total others).1, l.2, steps ++ (rwMain.deferred total others).2⟩
  else ⟨false, total, l.2, steps⟩

/-- The errors on which the failure callback was invoked, read off a trace. -/
def callBackCalls (tr : List Effect) : List GoError :=
  tr.filterMap fun
    | .errCallBack e => some e
    | _ => none

/-- The causes with which the connection was closed, read off a trace. -/
def closeCalls (tr : List Effect) : List GoError :=
  tr.filterMap fun
    | .closeConn c => some c
    | _ => none

/-! ## connecotr.CloseWithError (src/conn.go, lines 38-47) -/

/-- The part of a `connecotr` that closing it involves: what the executor's
`Conn.CloseWithError` returns for a given cause, and, when the transport `obj.c` is not
nil, what its `Close` returns. -/
structure connecotr where
  ConnCloseWithError : Option GoError → Option GoError
  c : Option (Option GoError)

/-- The calls that `connecotr.CloseWithError` makes. -/
inductive CloseStep where
  | executorClose (cause : Option GoError)
  | transportClose
  deriving DecidableEq, Repr

/-- The method `connecotr.CloseWithError`: the error it returns and the calls it makes. -/
def connecotr.CloseWithError (obj : connecotr) (err : Option GoError) :
    Option GoError × List CloseStep :=
  let err1 := obj.ConnCloseWithError err
  match obj.c with
  | some closed => (closed, [.executorClose err, .transportClose])
  | none => (err1, [.executorClose err])

/-! ## The SOCKS5 address codec (src/socks5.go, lines 20-140)

A byte is a natural number below 256. The codec copies the bytes of an address
unchanged; it computes only the length byte and the two port bytes. -/

/-- The fields of `Address` that the codec reads and writes: `Name` as the bytes of the
string, `IP` as the byte slice `net.IP` (nil, or its bytes), `Port`. -/
structure Address where
  Name : List Nat
  IP : Option (List Nat)
  Port : Int
  deriving DecidableEq, Repr

/-- The twelve bytes that precede an IPv4 address in its 16-byte form. -/
def v4InV6Prefix : List Nat := [0, 0, 0, 0, 0, 0, 0, 0, 0, 0, 255, 255]

/-- Go's `net.IP.To4`: a 4-byte slice as it is, the last four bytes of a 16-byte slice
that starts with `v4InV6Prefix`, nil otherwise. -/
def IP.To4 (ip : List Nat) : Option (List Nat) :=
  if ip.length = 4 then some ip
  else if ip.length = 16 ∧ ip.take 12 = v4InV6Prefix then some (ip.drop 12)
  else none

/-- Go's `net.IP.To16`: a 4-byte slice behind `v4InV6Prefix`, a 16-byte slice as it is,
nil otherwise. -/
def IP.To16 (ip : List Nat) : Option (List Nat) :=
  if ip.length = 4 then some (v4InV6Prefix ++ ip)
  else if ip.length = 16 then some ip
  else none

/-- Go's `net.IP.Equal`: equal bytes, or an IPv4 address and its 16-byte form. -/
def IP.Equal (ip x : List Nat) : Bool :=
  if ip.length = x.length then ip == x
  else if ip.length = 4 ∧ x.length = 16 then x.take 12 == v4InV6Prefix && ip == x.drop 12
  else if ip.length = 16 ∧ x.length = 4 then ip.take 12 == v4InV6Prefix && ip.drop 12 == x
  else false

/-- The two bytes of `binary.BigEndian.PutUint16(p, uint16(port))`. -/
def portBytes (port : Int) : List Nat :=
  [(port % 65536).toNat / 256, (port % 65536).toNat % 256]

/-- The chunks that `WriteUdpAddr` hands to `w.Write` before the port, in order, or the
error it returns before writing anything (lines 27-69). -/
def WriteUdpAddr.chunks (addr : Address) : Except GoError (List (List Nat)) :=
  match addr.IP with
  | some ip =>
    match IP.To4 ip with
    | some ip4 => .ok [[1], ip4]
    | none =>
      match IP.To16 ip with
      | some ip6 => .ok [[4], ip6]
      | none => .ok [[1, 0, 0, 0, 0]]
  | none =>
    if addr.Name ≠ [] then
      if addr.Name.length > 255 then .error (.new "errStringTooLong")
      else .ok [[3, addr.Name.length % 256], addr.Name]
    else .ok [[1, 0, 0, 0, 0]]

/-- An `io.Writer`: `Write` on a writer state and a chunk gives the new state and the
error. -/
structure Writer (σ : Type) where
  Write : σ → List Nat → σ × Option GoError

/-- The chunks written one after the other; the first error ends the sequence and is
returned. -/
def Writer.writeAll {σ : Type} (W : Writer σ) : σ → List (List Nat) → σ × Option GoError
  | w, [] => (w, none)
  | w, chunk :: rest =>
    match W.Write w chunk with
    | (w1, some e) => (w1, some e)
    | (w1, none) => W.writeAll w1 rest

/-- The function `WriteUdpAddr`: the address chunks, then the two port bytes. -/
def WriteUdpAddr {σ : Type} (W : Writer σ) (w : σ) (addr : Address) : σ × Option GoError :=
  match WriteUdpAddr.chunks addr with
  | .error e => (w, some e)
  | .ok chunks => W.writeAll w (chunks ++ [portBytes addr.Port])

/-- The writer `bytes.Buffer`: `Write` appends and returns no error. -/
def bufferWriter : Writer (List Nat) where
  Write := fun buf chunk => (buf ++ chunk, none)

/-- What `ReadUdpAddr` returns, and the bytes it leaves in the reader. -/
structure ReadResult where
  addr : Address
  err : Option GoError
  rest : List Nat
  deriving DecidableEq, Repr

/-- The call `io.ReadFull(r, buf)` with `len(buf) = n` on a reader that holds the bytes
`r`: the bytes read or the error (`io.EOF` when nothing could be read,
`io.ErrUnexpectedEOF` when too little), and the bytes left. -/
def readFull (r : List Nat) (n : Nat) : Except GoError (List Nat) × List Nat :=
  if n ≤ r.length then (.ok (r.take n), r.drop n)
  else if r = [] then (.error (.new "EOF"), [])
  else (.error (.new "unexpected EOF"), [])

/-- The port of lines 134-139, read after the address part `a`:
`int(binary.BigEndian.Uint16(port[:]))`. -/
def ReadUdpAddr.port (a : Address) (r : List Nat) : ReadResult :=
  match readFull r 2 with
  | (.error e, rest) => ⟨a, some e, rest⟩
  | (.ok p, rest) => ⟨{ a with Port := (p.getD 0 0 * 256 + p.getD 1 0 : Nat) }, none, rest⟩

/-- The function `ReadUdpAddr`, on a reader that holds the bytes `r` (a `bytes.Buffer`,
as in `UDPConn.ReadFrom`): a one-byte `Read` fails with `io.EOF` on an empty reader. -/
def ReadUdpAddr (r : List Nat) : ReadResult :=
  let zero : Address := ⟨[], none, 0⟩
  match r with
  | [] => ⟨zero, some (.new "EOF"), []⟩
  | atyp :: r1 =>
    if atyp = 1 then
      match readFull r1 4 with
      | (.error e, rest) => ⟨zero, some e, rest⟩
      | (.ok ip, rest) => ReadUdpAddr.port { zero with IP := some ip } rest
    else if atyp = 4 then
      match readFull r1 16 with
      | (.error e, rest) => ⟨zero, some e, rest⟩
      | (.ok ip, rest) => ReadUdpAddr.port { zero with IP := some ip } rest
    else if atyp = 3 then
      match r1 with
      | [] => ⟨zero, some (.new "EOF"), []⟩
      | addrLen :: r2 =>
        match readFull r2 addrLen with
        | (.error e, rest) => ⟨zero, some e, rest⟩
        | (.ok fqdn, rest) => ReadUdpAddr.port { zero with Name := fqdn } rest
    else ⟨zero, some (.new "invalid atyp"), r1⟩

/-- An address that is an IPv4 address: `IP` is set and `To4` accepts it. -/
def Address.isIPv4 (a : Address) : Bool :=
  match a.IP with
  | some ip => (IP.To4 ip).isSome
  | none => false

/-- An address that is an IPv6 address: `IP` is a 16-byte slice that `To4` rejects. -/
def Address.isIPv6 (a : Address) : Bool :=
  match a.IP with
  | some ip => (IP.To4 ip).isNone && ip.length == 16
  | none => false

/-- An address that is a domain name of at most 255 bytes: no `IP`, and a `Name` that is
not empty (compare `Address.Nil`). -/
def Address.isDomain (a : Address) : Bool :=
  a.IP.isNone && (a.Name != []) && decide (a.Name.length ≤ 255)

/-! ## The deferred function of Client.request (src/requests.go, lines 254-273) -/

/-- What the body of `Client.request` (lines 274-416) leaves when it returns, and what
its deferred function consults: the response, the named result `err`, `option.once`,
whether the response is a WebSocket, SSE or stream response, what `response.ReadBody()`
would return, and the two callbacks of the option. -/
structure RequestRun (ρ : Type) where
  response : ρ
  err : Option GoError
  once : Bool
  streaming : Bool
  ReadBody : Option GoError
  ResultCallBack : Option (ρ → Option GoError)
  ErrCallBack : Option (ρ → GoError → Option GoError)

/-- The value of `err` after lines 258-264: the body is read when there is no error and
the response is not streaming, then the result callback runs when there is still no
error. -/
def Client.request.settled {ρ : Type} (run : RequestRun ρ) : Option GoError :=
  let err1 := if run.err.isNone && !run.streaming then run.ReadBody else run.err
  match err1, run.ResultCallBack with
  | none, some cb => cb run.response
  | e, _ => e

/-- The value of `err` after lines 265-272: an error is shown to `ErrCallBack`, and an
error `err2` that the callback returns is returned as `tools.WrapError(errFatal, err2)`. -/
def Client.request.deferred {ρ : Type} (run : RequestRun ρ) : Option GoError :=
  match Client.request.settled run with
  | none => none
  | some e =>
    match run.ErrCallBack with
    | none => some e
    | some cb =>
      match cb run.response e with
      | some err2 => some (.wrapErr .errFatal err2)
      | none => some e

/-- The method `Client.request`, as the attempt that `Client.Request` sees. -/
def Client.request {ρ : Type} (run : RequestRun ρ) : Attempt ρ :=
  ⟨run.response, Client.request.deferred run, run.once⟩

/-! ## Workers leaving a pool concurrently (src/conn.go, lines 190-196, 213-216)

The deferred function of `rwMain` performs three operations on shared state one after
the other: `conn.CloseWithError`, `obj.total.Add(-1)`, and `obj.total.Load()` with the
call of `obj.close` that depends on it. Between two of them any other worker can run. -/

/-- How far a worker has come in the deferred function of `rwMain`. -/
inductive ExitPc where
  | leaving
  | connClosed
  | decremented
  | gone
  deriving DecidableEq, Repr

/-- The pool as its workers see it: the counter `total`, the number of calls of
`connPool.close` so far, and the position of every worker. -/
structure PoolState where
  total : Int
  closes : Nat
  workers : List ExitPc
  deriving DecidableEq, Repr

/-- The next operation of worker `i` in the deferred function of `rwMain`. -/
def PoolState.step (p : PoolState) (i : Nat) : PoolState :=
  match p.workers.get? i with
  | some .leaving => { p with workers := p.workers.set i .connClosed }
  | some .connClosed => { p with total := p.total - 1, workers := p.workers.set i .decremented }
  | some .decremented =>
    { p with closes := if p.total ≤ 0 then p.closes + 1 else p.closes,
             workers := p.workers.set i .gone }
  | some .gone => p
  | none => p

/-- Whether a worker at this position is still counted in `total`: it has not yet run
`obj.total.Add(-1)`. -/
def ExitPc.counted : ExitPc → Bool
  | .leaving => true
  | .connClosed => true
  | .decremented => false
  | .gone => false

/-- The number of workers of the pool that are still counted in `total`. -/
def PoolState.counted (p : PoolState) : Nat :=
  p.workers.countP ExitPc.counted

/-- The pool after the workers took their steps in the order `schedule` names them. -/
def PoolState.run (p : PoolState) (schedule : List Nat) : PoolState :=
  schedule.foldl PoolState.step p

/-! ## orderMap (src/body.go, lines 25-45) -/

/-- The type `orderMap`: `data` gives the value stored under a key, if any; `order` is
the slice of keys. -/
structure orderMap (V : Type) where
  data : String → Option V
  order : List String

/-- The function `NewOrderMap`. -/
def NewOrderMap {V : Type} : orderMap V := ⟨fun _ => none, []⟩

/-- The helper `tools.DelSliceVals` of the library gospider007/tools: the slice without
the elements equal to `val`. -/
def DelSliceVals (vals : List String) (val : String) : List String :=
  vals.filter fun v => v != val

/-- The method `orderMap.Del`. -/
def orderMap.Del {V : Type} (obj : orderMap V) (key : String) : orderMap V :=
  ⟨fun k => if k = key then none else obj.data k, DelSliceVals obj.order key⟩

/-- The method `orderMap.Set`. -/
def orderMap.Set {V : Type} (obj : orderMap V) (key : String) (val : V) : orderMap V :=
  let obj1 := obj.Del key
  ⟨fun k => if k = key then some val else obj1.data k, obj1.order ++ [key]⟩

/-- A call of `Set` or of `Del`. -/
inductive MapCall (V : Type) where
  | set (key : String) (val : V)
  | del (key : String)
  deriving DecidableEq, Repr

/-- The key a call is about. -/
def MapCall.key {V : Type} : MapCall V → String
  | .set key _ => key
  | .del key => key

/-- One call applied to a map. -/
def orderMap.call {V : Type} (obj : orderMap V) : MapCall V → orderMap V
  | .set key val => obj.Set key val
  | .del key => obj.Del key

/-- The map that a sequence of calls, first call first, builds from `NewOrderMap`. -/
def orderMap.run {V : Type} (calls : List (MapCall V)) : orderMap V :=
  calls.foldl orderMap.call NewOrderMap

/-- What the most recent call on `key` has stored, reading a list of calls that has the
most recent call first: the position of that call, counted from the oldest call, and
the value, when it was a `Set`; nothing when it was a `Del` or there was no call. -/
def lastSetRev {V : Type} : List (MapCall V) → String → Option (Nat × V)
  | [], _ => none
  | .set k v :: older, key => if k = key then some (older.length, v) else lastSetRev older key
  | .del k :: older, key => if k = key then none else lastSetRev older key

/-- The position and the value of the most recent `Set` of `key` in a sequence of calls,
first call first, when no `Del` of `key` follows it. -/
def lastSet {V : Type} (calls : List (MapCall V)) (key : String) : Option (Nat × V) :=
  lastSetRev calls.reverse key

/-! ## Concrete inputs used to exercise the theorems -/

/-- An open client, no URL in the option, a URL that parses, `MaxRetries = 3`. -/
def sampleCall : Call String := ⟨false, none, .ok "http://a.example/", 3⟩

/-- An executor whose attempts all fail with a plain error; the world counts the calls. -/
def failingRequest (s : Nat) (_ : String) : Attempt Nat × Nat :=
  (⟨s, some (.new "connection reset"), false⟩, s + 1)

/-- An executor whose attempts all fail and leave `option.once` set. -/
def onceRequest (s : Nat) (_ : String) : Attempt Nat × Nat :=
  (⟨s, some (.new "connection reset"), true⟩, s + 1)

/-- An executor whose attempts all fail with an error tagged fatal. -/
def fatalRequest (s : Nat) (_ : String) : Attempt Nat × Nat :=
  (⟨s, some (.wrap .errFatal "tempRequest init proxy error"), false⟩, s + 1)

/-- A task without callbacks, all flags unset. -/
def plainTask : ReqTask := ⟨none, false, false, false, false⟩

/-- A task whose failure callback keeps the error it is shown. -/
def keepTask : ReqTask := ⟨some fun _ => none, false, false, false, false⟩

/-- A task with `isNotice` set whose failure callback replaces the error when it is
shown a response, and keeps it otherwise. -/
def respVetoTask : ReqTask :=
  ⟨some fun reqCtx => if reqCtx.response.isSome then some (.new "veto") else none,
    false, false, true, false⟩

/-- A task whose failure callback replaces every error. -/
def vetoTask : ReqTask := ⟨some fun _ => some (.new "veto"), false, true, true, false⟩

/-- The executor answers 101 with a body; later the request context ends with
`context.DeadlineExceeded` while the tunnel is still open. -/
def deadlineSchedule : Schedule where
  forceAtEntry := none
  doRequest := ⟨some ⟨101, some (.raw 0)⟩, true, none⟩
  header := .done
  taskCause := none
  body := .reqDone .deadlineExceeded
  upgrade := .bodyDone .errNoErr

/-- The executor answers 101 with a body; the request context ends with the no-error
cause, and later the tunnel ends cleanly. -/
def gracefulSchedule : Schedule where
  forceAtEntry := none
  doRequest := ⟨some ⟨101, some (.raw 0)⟩, true, none⟩
  header := .done
  taskCause := none
  body := .reqDone .errNoErr
  upgrade := .bodyDone .errNoErr

/-- The executor fails: `DoRequest` returns no response and the error `EOF`; nothing
else has fired. -/
def failedSchedule : Schedule where
  forceAtEntry := none
  doRequest := ⟨none, false, some (.new "EOF")⟩
  header := .done
  taskCause := none
  body := .bodyDone .errNoErr
  upgrade := .bodyDone .errNoErr

/-- The executor returns no response after the task context was cancelled. -/
def canceledSchedule : Schedule where
  forceAtEntry := none
  doRequest := ⟨none, false, some .canceled⟩
  header := .done
  taskCause := some .canceled
  body := .bodyDone .errNoErr
  upgrade := .bodyDone .errNoErr

/-- The executor returns a 200 response together with an error; the body is then read
to its end. -/
def responseAndErrorSchedule : Schedule where
  forceAtEntry := none
  doRequest := ⟨some ⟨200, some (.raw 0)⟩, true, some (.new "EOF")⟩
  header := .done
  taskCause := none
  body := .bodyDone .errNoErr
  upgrade := .bodyDone .errNoErr

/-- The force-close token fires while `taskMain` waits for the executor. -/
def forceDuringSchedule : Schedule where
  forceAtEntry := none
  doRequest := ⟨none, false, none⟩
  header := .force (.wrap (.new "conn pool close") "connPool close")
  taskCause := none
  body := .bodyDone .errNoErr
  upgrade := .bodyDone .errNoErr

/-- The force-close token fires while `taskMain` waits for the executor, after `httpReq`
has stored a 200 response but before `done` is taken. -/
def storedForceSchedule : Schedule where
  forceAtEntry := none
  doRequest := ⟨some ⟨200, some (.raw 0)⟩, true, none⟩
  header := .force (.wrap (.new "conn pool close") "connPool close")
  taskCause := none
  body := .bodyDone .errNoErr
  upgrade := .bodyDone .errNoErr
  stored := .wrapped

/-- The force-close token has fired before `taskMain` starts. -/
def forceAtEntrySchedule : Schedule where
  forceAtEntry := some (.wrap (.new "conn pool close") "connPool close")
  doRequest := ⟨none, false, none⟩
  header := .done
  taskCause := none
  body := .bodyDone .errNoErr
  upgrade := .bodyDone .errNoErr

/-- The executor answers 200 with a body; the body then breaks off with an error. -/
def brokenBodySchedule : Schedule where
  forceAtEntry := none
  doRequest := ⟨some ⟨200, some (.raw 0)⟩, true, none⟩
  header := .done
  taskCause := none
  body := .bodyDone (.new "unexpected EOF")
  upgrade := .bodyDone .errNoErr

/-- The executor answers 200 with a body, which is then read to its end. -/
def cleanSchedule : Schedule where
  forceAtEntry := none
  doRequest := ⟨some ⟨200, some (.raw 0)⟩, true, none⟩
  header := .done
  taskCause := none
  body := .bodyDone .errNoErr
  upgrade := .bodyDone .errNoErr

/-- A connection with a transport whose `Close` succeeds and an executor whose
`CloseWithError` fails. -/
def executorFailsConn : connecotr where
  ConnCloseWithError := fun _ => some (.new "executor close failed")
  c := some none

/-- A connection without a transport and an executor whose `CloseWithError` fails. -/
def bareConn : connecotr where
  ConnCloseWithError := fun _ => some (.new "executor close failed")
  c := none

/-- The address 192.0.2.7:8080 with the IP in its 4-byte form. -/
def ipv4Addr : Address := ⟨[], some [192, 0, 2, 7], 8080⟩

/-- The address 192.0.2.7:8080 with the IP in its 16-byte form, as `net.ParseIP` gives
it. -/
def ipv4MappedAddr : Address :=
  ⟨[], some [0, 0, 0, 0, 0, 0, 0, 0, 0, 0, 255, 255, 192, 0, 2, 7], 8080⟩

/-- The address [2001:db8::1]:443. -/
def ipv6Addr : Address :=
  ⟨[], some [32, 1, 13, 184, 0, 0, 0, 0, 0, 0, 0, 0, 0, 0, 0, 1], 443⟩

/-- The address a.io:53, a domain name of four bytes. -/
def domainAddr : Address := ⟨[97, 46, 105, 111], none, 53⟩

/-- An address with a domain name of 256 bytes and no IP. -/
def longNameAddr : Address := ⟨List.replicate 256 97, none, 80⟩

/-- A run of `Client.request` that fails with a plain error; its `ErrCallBack` keeps
the error of the first two attempts (responses 0 and 1) and answers "stop" from the third
on. -/
def lateVetoRun (n : Nat) : RequestRun Nat where
  response := n
  err := some (.new "client do error")
  once := false
  streaming := false
  ReadBody := none
  ResultCallBack := none
  ErrCallBack := some fun resp _ => if resp < 2 then none else some (.new "stop")

/-- An executor for `Client.Request` whose runs are `lateVetoRun`, numbered by the
world. -/
def lateVetoRuns (s : Nat) (_ : String) : RequestRun Nat × Nat := (lateVetoRun s, s + 1)

/-- Two workers on a pool whose counter is 2, both about to leave. -/
def twoWorkers : PoolState := ⟨2, 0, [.leaving, .leaving]⟩

/-- A sequence of calls on an `orderMap`. -/
def sampleCalls : List (MapCall Nat) :=
  [.set "a" 1, .set "b" 2, .set "c" 3, .set "a" 4, .del "b", .set "d" 5]

/-! ## Theorems -/

theorem retryLoop_fuel {ρ σ υ : Type} (request : σ → υ → Attempt ρ × σ) (u : υ) (M : Int) :
    ∀ (fuel : Nat) (i : Int) (resp : Option ρ) (err : Option GoError) (w : σ),
      (M + 1 - i).toNat ≤ fuel →
      Client.retryLoop request u M (fuel + 1) i resp err w
        = Client.retryLoop request u M fuel i resp err w := by
  intro fuel
  induction fuel with
  | zero =>
    intro i resp err w h
    have hi : ¬ i ≤ M := by omega
    simp [Client.retryLoop, hi]
  | succ n ih =>
    intro i resp err w h
    rw [Client.retryLoop]
    conv => rhs; rw [Client.retryLoop]
    by_cases hi : i ≤ M
    · have h2 : (M + 1 - (i + 1)).toNat ≤ n := by omega
      simp only [hi, if_true]
      rw [ih (i + 1) _ _ _ h2]
    · simp [hi]

/-- When every attempt fails with a retryable error, the loop makes one attempt per
remaining value of the counter, and ends with the results of the last one. -/
theorem retryLoop_all_fail {ρ σ υ : Type} (request : σ → υ → Attempt ρ × σ) (u : υ) (M : Int)
    (hfail : ∀ s, (request s u).1.stops = false) :
    ∀ (fuel : Nat) (i : Int) (resp : Option ρ) (err : Option GoError) (w : σ),
      fuel = (M + 1 - i).toNat → 0 < fuel →
      let r := Client.retryLoop request u M fuel i resp err w
      r.attempts.length = fuel ∧
        ∃ a, r.attempts.getLast? = some a ∧ r.err = a.err ∧ r.response = some a.response := by
  intro fuel
  induction fuel with
  | zero => intro i resp err w _ h; omega
  | succ n ih =>
    intro i resp err w hf _
    have hi : i ≤ M := by omega
    rw [Client.retryLoop]
    simp only [hi, if_true, hfail, Bool.false_eq_true, if_false]
    by_cases hn : n = 0
    · subst hn
      refine ⟨by simp [Client.retryLoop], (request w u).1, ?_⟩
      simp [Client.retryLoop]
    · have h := ih (i + 1) (some (request w u).1.response) (request w u).1.err (request w u).2
        (by omega) (by omega)
      obtain ⟨hlen, a, hlast, herr, hresp⟩ := h
      refine ⟨by simp [hlen], a, ?_, herr, hresp⟩
      rw [List.getLast?_cons, hlast]
      rfl

/-- The first attempt of the loop is the executor's first outcome, and when it meets
the exit test it is the only one and its results are returned. -/
theorem retryLoop_head {ρ σ υ : Type} (request : σ → υ → Attempt ρ × σ) (u : υ) (M : Int)
    (fuel : Nat) (i : Int) (resp : Option ρ) (err : Option GoError) (w : σ) (a : Attempt ρ)
    (h : (Client.retryLoop request u M fuel i resp err w).attempts.head? = some a) :
    a = (request w u).1 ∧
      (a.stops = true →
        (Client.retryLoop request u M fuel i resp err w).attempts = [a] ∧
        (Client.retryLoop request u M fuel i resp err w).response = some a.response ∧
        (Client.retryLoop request u M fuel i resp err w).err = a.err) := by
  cases fuel with
  | zero => simp [Client.retryLoop] at h
  | succ n =>
    rw [Client.retryLoop] at h ⊢
    by_cases hi : i ≤ M
    · simp only [hi, if_true] at h ⊢
      by_cases hs : (request w u).1.stops = true
      · simp only [hs, if_true] at h ⊢
        simp only [List.head?_cons, Option.some.injEq] at h
        subst h
        simp
      · simp only [hs, Bool.false_eq_true, if_false] at h ⊢
        simp only [List.head?_cons, Option.some.injEq] at h
        subst h
        simp [hs]
    · simp [hi] at h

/-- An open client with a usable URL and a non-negative retry count makes a first
attempt, the executor's first outcome. -/
theorem Request_head {ρ σ υ : Type} (c : Call υ) (request : σ → υ → Attempt ρ × σ) (w : σ)
    (u : υ) (hopen : c.closed = false) (hurl : c.uhref = .ok u) (hM : 0 ≤ c.MaxRetries) :
    (Client.Request c request w).attempts.head? = some (request w u).1 := by
  obtain ⟨n, hn⟩ : ∃ n, (c.MaxRetries + 1).toNat = n + 1 := ⟨c.MaxRetries.toNat, by omega⟩
  simp only [Client.Request, hopen, hurl, hn, Client.retryLoop]
  simp only [Bool.false_eq_true, if_false, hM, if_true]
  split <;> rfl

/-- Whatever `Client.Request` does, its first attempt, if it meets the exit test, is its
only attempt and supplies the returned response and error. -/
theorem Request_first_stops {ρ σ υ : Type} (c : Call υ) (request : σ → υ → Attempt ρ × σ)
    (w : σ) (a : Attempt ρ)
    (h : (Client.Request c request w).attempts.head? = some a) (hs : a.stops = true) :
    (Client.Request c request w).attempts = [a] ∧
      (Client.Request c request w).response = some a.response ∧
      (Client.Request c request w).err = a.err := by
  unfold Client.Request at h ⊢
  by_cases hc : c.closed = true
  · simp [hc] at h
  · simp only [hc, Bool.false_eq_true, if_false] at h ⊢
    cases hu : c.uhref with
    | error e => simp [hu] at h
    | ok u =>
      simp only [hu] at h ⊢
      exact (retryLoop_head request u c.MaxRetries _ 0 none none w a h).2 hs

/-- C1: for an open client with a usable URL and `MaxRetries = M ≥ 0`, when every attempt
fails with an error that is not tagged fatal and leaves the body not single-use,
`Client.Request` makes exactly `M + 1` attempts and returns the (non-nil) error and the
response of the last attempt. -/
theorem Request_retry_ceiling {ρ σ υ : Type} (c : Call υ) (request : σ → υ → Attempt ρ × σ)
    (w : σ) (u : υ) (hopen : c.closed = false) (hurl : c.uhref = .ok u)
    (hM : 0 ≤ c.MaxRetries)
    (hfail : ∀ s, ∃ e, (request s u).1.err = some e ∧ e.isFatal = false ∧
      (request s u).1.once = false) :
    ((Client.Request c request w).attempts.length : Int) = c.MaxRetries + 1 ∧
      ∃ a, (Client.Request c request w).attempts.getLast? = some a ∧
        (Client.Request c request w).err = a.err ∧ a.err ≠ none ∧
        (Client.Request c request w).response = some a.response := by
  have hstop : ∀ s, (request s u).1.stops = false := by
    intro s
    obtain ⟨e, he, hf, ho⟩ := hfail s
    simp [Attempt.stops, he, hf, ho]
  have h := retryLoop_all_fail request u c.MaxRetries hstop (c.MaxRetries + 1).toNat 0
    none none w (by omega) (by omega)
  simp only [Client.Request, hopen, hurl, Bool.false_eq_true, if_false]
  obtain ⟨hlen, a, hlast, herr, hresp⟩ := h
  refine ⟨by rw [hlen]; omega, a, hlast, herr, ?_, hresp⟩
  have hmem : a ∈ (Client.retryLoop request u c.MaxRetries (c.MaxRetries + 1).toNat 0
      none none w).attempts := List.mem_of_getLast?_eq_some hlast
  intro hnone
  have hall : ∀ (fuel : Nat) (i : Int) (resp : Option ρ) (err : Option GoError) (w : σ),
      ∀ b ∈ (Client.retryLoop request u c.MaxRetries fuel i resp err w).attempts,
        b.err ≠ none := by
    intro fuel
    induction fuel with
    | zero => intro i resp err w b hb; simp [Client.retryLoop] at hb
    | succ n ih =>
      intro i resp err w b hb
      rw [Client.retryLoop] at hb
      by_cases hi : i ≤ c.MaxRetries
      · simp only [hi, if_true, hstop, Bool.false_eq_true, if_false, List.mem_cons] at hb
        rcases hb with hb | hb
        · obtain ⟨e, he, _, _⟩ := hfail w
          rw [hb, he]; simp
        · exact ih _ _ _ _ b hb
      · simp [hi] at hb
  exact hall _ _ _ _ _ a hmem hnone

/-- Witness of C1: with `MaxRetries = 3` and an executor that always fails, four
attempts are made and the fourth one's error is returned. -/
theorem Request_retry_ceiling_witness :
    ((Client.Request sampleCall failingRequest 0).attempts.length : Int)
        = sampleCall.MaxRetries + 1 ∧
      ∃ a, (Client.Request sampleCall failingRequest 0).attempts.getLast? = some a ∧
        (Client.Request sampleCall failingRequest 0).err = a.err ∧ a.err ≠ none ∧
        (Client.Request sampleCall failingRequest 0).response = some a.response :=
  Request_retry_ceiling sampleCall failingRequest 0 "http://a.example/" rfl rfl (by decide)
    (fun _ => ⟨.new "connection reset", rfl, rfl, rfl⟩)

/-- C2: for every `MaxRetries` value, when the first attempt leaves the option marked
single-use (`once` set), `Client.Request` makes exactly that one attempt, whether it
failed or not, and returns its response and error; and an open client with a usable
URL and `MaxRetries ≥ 0` does make a first attempt. -/
theorem Request_single_use {ρ σ υ : Type} (c : Call υ) (request : σ → υ → Attempt ρ × σ)
    (w : σ) :
    (∀ a, (Client.Request c request w).attempts.head? = some a → a.once = true →
      (Client.Request c request w).attempts = [a] ∧
      (Client.Request c request w).response = some a.response ∧
      (Client.Request c request w).err = a.err) ∧
    (∀ u, c.closed = false → c.uhref = .ok u → 0 ≤ c.MaxRetries →
      (Client.Request c request w).attempts.head? = some (request w u).1) := by
  refine ⟨fun a h ho => Request_first_stops c request w a h ?_,
    fun u hopen hurl hM => Request_head c request w u hopen hurl hM⟩
  cases he : a.err <;> simp [Attempt.stops, he, ho]

/-- Witness of C2: with `MaxRetries = 3` and a failing attempt that marks the body
single-use, only the first attempt is made. -/
theorem Request_single_use_witness :
    ((Client.Request sampleCall onceRequest 0).attempts
        = [⟨0, some (.new "connection reset"), true⟩] ∧
      (Client.Request sampleCall onceRequest 0).response = some 0 ∧
      (Client.Request sampleCall onceRequest 0).err = some (.new "connection reset")) ∧
    (Client.Request sampleCall onceRequest 0).attempts.head?
      = some (onceRequest 0 "http://a.example/").1 :=
  ⟨(Request_single_use sampleCall onceRequest 0).1 ⟨0, some (.new "connection reset"), true⟩
      rfl rfl,
    (Request_single_use sampleCall onceRequest 0).2 "http://a.example/" rfl rfl (by decide)⟩

/-- C3: for every `MaxRetries` value, when the first attempt fails with an error tagged
fatal, `Client.Request` makes exactly that one attempt and returns that error; and an
open client with a usable URL and `MaxRetries ≥ 0` does make a first attempt. -/
theorem Request_fatal_stops {ρ σ υ : Type} (c : Call υ) (request : σ → υ → Attempt ρ × σ)
    (w : σ) :
    (∀ a e, (Client.Request c request w).attempts.head? = some a → a.err = some e →
      e.isFatal = true →
      (Client.Request c request w).attempts = [a] ∧
      (Client.Request c request w).err = some e) ∧
    (∀ u, c.closed = false → c.uhref = .ok u → 0 ≤ c.MaxRetries →
      (Client.Request c request w).attempts.head? = some (request w u).1) := by
  refine ⟨fun a e h he hf => ?_, fun u hopen hurl hM => Request_head c request w u hopen hurl hM⟩
  have hs : a.stops = true := by simp [Attempt.stops, he, hf]
  obtain ⟨h1, _, h3⟩ := Request_first_stops c request w a h hs
  exact ⟨h1, h3.trans he⟩

/-- Witness of C3: with `MaxRetries = 3` and a first attempt that fails with a wrapped
`errFatal`, only that attempt is made and its error is returned. -/
theorem Request_fatal_stops_witness :
    ((Client.Request sampleCall fatalRequest 0).attempts
        = [⟨0, some (.wrap .errFatal "tempRequest init proxy error"), false⟩] ∧
      (Client.Request sampleCall fatalRequest 0).err
        = some (.wrap .errFatal "tempRequest init proxy error")) ∧
    (Client.Request sampleCall fatalRequest 0).attempts.head?
      = some (fatalRequest 0 "http://a.example/").1 :=
  ⟨(Request_fatal_stops sampleCall fatalRequest 0).1
      ⟨0, some (.wrap .errFatal "tempRequest init proxy error"), false⟩
      (.wrap .errFatal "tempRequest init proxy error") rfl rfl rfl,
    (Request_fatal_stops sampleCall fatalRequest 0).2 "http://a.example/" rfl rfl (by decide)⟩

/-! ### The steps of `taskMain`, one at a time -/

theorem closeCalls_append (a b : List Effect) :
    closeCalls (a ++ b) = closeCalls a ++ closeCalls b := by
  simp [closeCalls, List.filterMap_append]

theorem callBackCalls_append (a b : List Effect) :
    callBackCalls (a ++ b) = callBackCalls a ++ callBackCalls b := by
  simp [callBackCalls, List.filterMap_append]

theorem phaseOne_calls (t : ReqTask) (s : Schedule) :
    closeCalls (taskMain.phaseOne t s).trace = [] ∧
      callBackCalls (taskMain.phaseOne t s).trace = [] := by
  unfold taskMain.phaseOne
  cases s.forceAtEntry <;> cases s.header <;> cases t.Logger <;>
    simp [closeCalls, callBackCalls]

theorem bodyWait_of_err (s : Schedule) (st : TaskState) (e : GoError) (h : st.err = some e) :
    taskMain.bodyWait s st = st := by
  simp [taskMain.bodyWait, h]

theorem bodyWait_fields (s : Schedule) (st : TaskState) :
    (taskMain.bodyWait s st).isNotice = st.isNotice ∧
      (taskMain.bodyWait s st).disRetry = st.disRetry ∧
      (taskMain.bodyWait s st).enableRetry = st.enableRetry ∧
      closeCalls (taskMain.bodyWait s st).trace = closeCalls st.trace ∧
      callBackCalls (taskMain.bodyWait s st).trace = callBackCalls st.trace := by
  unfold taskMain.bodyWait taskMain.upgradeWait
  split
  · split
    · cases s.body <;> cases s.upgrade <;>
        simp [closeCalls_append, callBackCalls_append, closeCalls, callBackCalls] <;>
        split <;> simp [closeCalls_append, callBackCalls_append, closeCalls, callBackCalls]
    · simp
  · simp

theorem callBack_none (t : ReqTask) (st : TaskState) (h : st.err = none) :
    taskMain.callBack t st = st := by
  simp [taskMain.callBack, h]

theorem callBack_unset (t : ReqTask) (st : TaskState) (h : t.ErrCallBack = none) :
    taskMain.callBack t st = st := by
  unfold taskMain.callBack
  rw [h]
  cases st.err <;> rfl

theorem callBack_some (t : ReqTask) (st : TaskState) (cb : ReqCtx → Option GoError)
    (e : GoError) (hcb : t.ErrCallBack = some cb) (he : st.err = some e) :
    taskMain.callBack t st =
      match cb { st.reqCtx with err := some e } with
      | some err2 =>
        { st with reqCtx := { st.reqCtx with err := some e }, isNotice := false,
                  disRetry := true, err := some err2,
                  trace := st.trace ++ [.errCallBack e] }
      | none => { st with reqCtx := { st.reqCtx with err := some e },
                          trace := st.trace ++ [.errCallBack e] } := by
  unfold taskMain.callBack
  rw [hcb, he]

theorem closeCalls_closeSteps (err : Option GoError) :
    closeCalls (closeSteps err) =
      match err with
      | some e => [.wrap e "taskMain close with error"]
      | none => [] := by
  cases err <;> rfl

theorem callBack_closeCalls (t : ReqTask) (st : TaskState) :
    closeCalls (taskMain.callBack t st).trace = closeCalls st.trace := by
  unfold taskMain.callBack
  split
  · dsimp only
    split <;> simp [closeCalls_append, closeCalls]
  · rfl

/-- The connection is closed by `taskMain` at most once, with the wrapped final error,
and exactly when the final error is non-nil. -/
theorem taskMain_closeCalls (t : ReqTask) (s : Schedule) :
    closeCalls (taskMain t s).trace =
      match (taskMain t s).err with
      | some e => [.wrap e "taskMain close with error"]
      | none => [] := by
  have h1 := (bodyWait_fields s (taskMain.cancelTask
    (taskMain.callBack t (taskMain.phaseOne t s)))).2.2.2.1
  have h2 := callBack_closeCalls t (taskMain.phaseOne t s)
  have h3 := (phaseOne_calls t s).1
  have h4 : ∀ st : TaskState, closeCalls (taskMain.cancelTask st).trace = closeCalls st.trace := by
    intro st
    simp only [taskMain.cancelTask, closeCalls_append]
    simp [closeCalls]
  simp only [taskMain, taskMain.closeOnError, closeCalls_append, h1, closeCalls_closeSteps,
    h4, h2, h3, List.nil_append]

/-- When the first step leaves an error, nothing after the callback changes it. -/
theorem taskMain_of_callBack_err (t : ReqTask) (s : Schedule) (e : GoError)
    (h : (taskMain.callBack t (taskMain.phaseOne t s)).err = some e) :
    (taskMain t s).err = some e ∧
      (taskMain t s).isNotice = (taskMain.callBack t (taskMain.phaseOne t s)).isNotice ∧
      (taskMain t s).disRetry = (taskMain.callBack t (taskMain.phaseOne t s)).disRetry ∧
      (taskMain t s).enableRetry = (taskMain.callBack t (taskMain.phaseOne t s)).enableRetry ∧
      (taskMain t s).trace = (taskMain.callBack t (taskMain.phaseOne t s)).trace ++
        [.taskCnl e, .closeConn (.wrap e "taskMain close with error")] := by
  have hk : (taskMain.cancelTask (taskMain.callBack t (taskMain.phaseOne t s))).err = some e := h
  unfold taskMain
  rw [bodyWait_of_err _ _ e hk]
  simp [taskMain.closeOnError, taskMain.cancelTask, h, closeSteps]

/-- C4 fails as stated: a 101 response, the request context ends with
`context.DeadlineExceeded` while the tunnel is open: `taskMain` ends with that cause
and closes the connection straight after the first wait, without the second wait. -/
theorem taskMain_upgrade_deadline_closes :
    (taskMain plainTask deadlineSchedule).err = some .deadlineExceeded ∧
    (taskMain plainTask deadlineSchedule).trace
      = [.startExecutor, .taskCnl .errNoErr, .waitBody,
         .closeConn (.wrap .deadlineExceeded "taskMain close with error")] := by
  decide

/-- C4, amended: for a 101 response with a body-done context, when the request context
is what ends the first wait for the body: with the no-error cause `taskMain` does not
close the connection there but waits again, for the force-close or the body-done
token, and closes it only on a resulting error; with any other cause (an expired
deadline, a cancellation) it ends with that cause and closes the connection at once. -/
theorem taskMain_upgrade_wait (t : ReqTask) (s : Schedule) (r : HttpResponse) (cause : GoError)
    (hentry : s.forceAtEntry = none) (hdone : s.header = .done)
    (hresp : s.doRequest.response = some r) (hctx : s.doRequest.bodyCtx = true)
    (hstatus : r.StatusCode = 101) (hbody : s.body = .reqDone cause) :
    (cause = .errNoErr →
      (taskMain t s).err =
        (match s.upgrade with
          | .force c => some c
          | .bodyDone c => if c ≠ .errNoErr then some c else none) ∧
      (taskMain t s).trace =
        [.startExecutor] ++ (if t.Logger then [.logger] else []) ++
          [.taskCnl .errNoErr, .waitBody, .waitUpgrade] ++ closeSteps (taskMain t s).err) ∧
    (cause ≠ .errNoErr →
      (taskMain t s).err = some cause ∧
      (taskMain t s).trace =
        [.startExecutor] ++ (if t.Logger then [.logger] else []) ++
          [.taskCnl .errNoErr, .waitBody,
           .closeConn (.wrap cause "taskMain close with error")]) := by
  constructor
  · intro hc
    subst hc
    cases hu : s.upgrade <;>
      simp [taskMain, taskMain.phaseOne, taskMain.callBack, taskMain.cancelTask,
        taskMain.bodyWait, taskMain.upgradeWait, taskMain.closeOnError, httpReq, wrapBody,
        causeErr, hentry, hdone, hresp, hctx, hstatus, hbody, hu]
  · intro hc
    simp [taskMain, taskMain.phaseOne, taskMain.callBack, taskMain.cancelTask,
      taskMain.bodyWait, taskMain.upgradeWait, taskMain.closeOnError, httpReq, wrapBody,
      causeErr, hentry, hdone, hresp, hctx, hstatus, hbody, hc, closeSteps]

/-- Witness of the amended C4: with the no-error cause `taskMain` waits a second time and
ends without closing the connection; with an expired deadline it closes at once. -/
theorem taskMain_upgrade_wait_witness :
    ((taskMain plainTask gracefulSchedule).err = none ∧
      (taskMain plainTask gracefulSchedule).trace
        = [.startExecutor, .taskCnl .errNoErr, .waitBody, .waitUpgrade]) ∧
    ((taskMain plainTask deadlineSchedule).err = some .deadlineExceeded ∧
      (taskMain plainTask deadlineSchedule).trace
        = [.startExecutor, .taskCnl .errNoErr, .waitBody,
           .closeConn (.wrap .deadlineExceeded "taskMain close with error")]) :=
  ⟨(taskMain_upgrade_wait plainTask gracefulSchedule ⟨101, some (.raw 0)⟩ .errNoErr
      rfl rfl rfl rfl rfl rfl).1 rfl,
    (taskMain_upgrade_wait plainTask deadlineSchedule ⟨101, some (.raw 0)⟩ .deadlineExceeded
      rfl rfl rfl rfl rfl rfl).2 (by decide)⟩

/-- The error returned by `Conn.DoRequest` has no influence on `taskMain`. -/
theorem taskMain_doRequest_err_unused (t : ReqTask) (s : Schedule) (e : Option GoError) :
    taskMain t { s with doRequest := { s.doRequest with err := e } } = taskMain t s := by
  rfl

/-- C5, at two inputs: `httpReq` wraps the executor's error with the stage marker, but
`taskMain` reports the generic nil-response error when there is no response, and no
error at all when a response came with the error. -/
theorem taskMain_drops_roundTrip_error :
    (httpReq failedSchedule.doRequest).err = some (.wrap (.new "EOF") "roundTrip error") ∧
    (taskMain plainTask failedSchedule).err = some (.new "body done response is nil") ∧
    (httpReq responseAndErrorSchedule.doRequest).err
      = some (.wrap (.new "EOF") "roundTrip error") ∧
    (taskMain plainTask responseAndErrorSchedule).err = none := by
  decide

/-- C6 fails as stated: the executor ends with a nil response, the task context has not
fired, and the configured failure callback replaces the error: `taskMain` returns the
replacement, not the generic nil-response error. -/
theorem taskMain_nil_response_veto :
    failedSchedule.doRequest.response = none ∧ failedSchedule.taskCause = none ∧
    (taskMain vetoTask failedSchedule).err = some (.new "veto") := by
  decide

/-- The first step of the deferred function on an error `e`: the callback, when one is
configured, is shown `e` once; its replacement, if any, becomes the error, sets
`disRetry` and clears `isNotice`. -/
theorem callBack_err (t : ReqTask) (st : TaskState) (e : GoError) (h : st.err = some e) :
    (taskMain.callBack t st).err = some ((t.veto st.reqCtx e).getD e) ∧
      (taskMain.callBack t st).isNotice
        = (if (t.veto st.reqCtx e).isSome then false else st.isNotice) ∧
      (taskMain.callBack t st).disRetry
        = (if (t.veto st.reqCtx e).isSome then true else st.disRetry) ∧
      (taskMain.callBack t st).enableRetry = st.enableRetry ∧
      (taskMain.callBack t st).trace
        = st.trace ++ (if t.ErrCallBack.isSome then [.errCallBack e] else []) := by
  cases hcb : t.ErrCallBack with
  | none => simp [callBack_unset t st hcb, ReqTask.veto, hcb, h]
  | some cb =>
    rw [callBack_some t st cb e hcb h]
    cases hr : cb { st.reqCtx with err := some e } <;> simp [ReqTask.veto, hcb, hr, h]

/-- C6, amended: whenever the executor completes phase one with a nil response,
`taskMain` returns a non-nil error: the task context's cancellation cause if that context
has fired, otherwise the generic "body done response is nil" error, unless a configured
failure callback returns a replacement for it, which is then returned. -/
theorem taskMain_nil_response (t : ReqTask) (s : Schedule)
    (hentry : s.forceAtEntry = none) (hdone : s.header = .done)
    (hnil : s.doRequest.response = none) :
    (taskMain t s).err ≠ none ∧
    (taskMain t s).err = some
      ((t.veto ⟨none, none⟩ (nilResponseErr s.taskCause)).getD (nilResponseErr s.taskCause)) ∧
    (t.veto ⟨none, none⟩ (nilResponseErr s.taskCause) = none →
      (s.taskCause = none → (taskMain t s).err = some (.new "body done response is nil")) ∧
      (∀ c, s.taskCause = some c → (taskMain t s).err = some c)) := by
  have hp : (taskMain.phaseOne t s).err = some (nilResponseErr s.taskCause) ∧
      (taskMain.phaseOne t s).reqCtx = ⟨none, none⟩ := by
    simp [taskMain.phaseOne, httpReq, hentry, hdone, hnil]
  have hc := (callBack_err t (taskMain.phaseOne t s) _ hp.1).1
  rw [hp.2] at hc
  have key := (taskMain_of_callBack_err t s _ hc).1
  refine ⟨by rw [key]; simp, key, fun hv => ⟨fun h0 => ?_, fun c h0 => ?_⟩⟩
  · rw [key, hv, h0]; rfl
  · rw [key, hv, h0]; rfl

/-- Witness of the amended C6: without a callback the generic error is returned, or
the cancellation cause when the task context has fired. -/
theorem taskMain_nil_response_witness :
    (taskMain plainTask failedSchedule).err ≠ none ∧
    (taskMain plainTask failedSchedule).err = some (.new "body done response is nil") ∧
    (taskMain plainTask canceledSchedule).err = some .canceled :=
  ⟨(taskMain_nil_response plainTask failedSchedule rfl rfl rfl).1,
    ((taskMain_nil_response plainTask failedSchedule rfl rfl rfl).2.2 rfl).1 rfl,
    ((taskMain_nil_response plainTask canceledSchedule rfl rfl rfl).2.2 rfl).2 .canceled rfl⟩

/-- C7 fails as stated: the force-close token fires while `taskMain` waits for the
executor: the task fails with the wrapped force-close cause, but `enableRetry` and
`isNotice` stay unset. -/
theorem taskMain_force_during_flags :
    (taskMain plainTask forceDuringSchedule).err
      = some (.wrap (.wrap (.new "conn pool close") "connPool close")
          "taskMain delete ctx error: ") ∧
    (taskMain plainTask forceDuringSchedule).enableRetry = false ∧
    (taskMain plainTask forceDuringSchedule).isNotice = false := by
  decide

/-- C7, amended: when the force-close token has already fired as `taskMain` starts, the
task fails, `enableRetry` is set, and, unless a failure callback replaces the error, the
error is the force-close cause and `isNotice` is set; when the token fires while
`taskMain` waits for the executor, the task fails, `enableRetry` is left as it was, and,
unless a failure callback replaces the error, the error is the force-close cause wrapped
with "taskMain delete ctx error: " and `isNotice` is left as it was. A replacement
returned by the callback becomes the error and clears `isNotice`; while `taskMain` waits,
the callback is shown whatever response `httpReq` has stored in the task by then. -/
theorem taskMain_force_close (t : ReqTask) (s : Schedule) (c : GoError) :
    (s.forceAtEntry = some c →
      (taskMain t s).err = some ((t.veto ⟨none, none⟩ c).getD c) ∧
      (taskMain t s).enableRetry = true ∧
      (taskMain t s).isNotice = (if (t.veto ⟨none, none⟩ c).isSome then false else true)) ∧
    (s.forceAtEntry = none → s.header = .force c →
      (taskMain t s).err = some ((t.veto ⟨s.early.1, none⟩
        (.wrap c "taskMain delete ctx error: ")).getD (.wrap c "taskMain delete ctx error: ")) ∧
      (taskMain t s).enableRetry = t.enableRetry ∧
      (taskMain t s).isNotice = (if (t.veto ⟨s.early.1, none⟩
        (.wrap c "taskMain delete ctx error: ")).isSome then false else t.isNotice)) := by
  constructor
  · intro h
    have hp : (taskMain.phaseOne t s) =
        { err := some c, reqCtx := ⟨none, none⟩, bodyCtx := false, enableRetry := true,
          isNotice := true, disRetry := t.disRetry, trace := [] } := by
      simp [taskMain.phaseOne, h]
    have hc := callBack_err t (taskMain.phaseOne t s) c (by rw [hp])
    have key := taskMain_of_callBack_err t s _ hc.1
    rw [hp] at hc key
    exact ⟨key.1, key.2.2.2.1.trans hc.2.2.2.1, key.2.1.trans hc.2.1⟩
  · intro h1 h2
    have hp : (taskMain.phaseOne t s) =
        { err := some (.wrap c "taskMain delete ctx error: "), reqCtx := ⟨s.early.1, none⟩,
          bodyCtx := s.early.2, enableRetry := t.enableRetry, isNotice := t.isNotice,
          disRetry := t.disRetry, trace := [.startExecutor] } := by
      simp [taskMain.phaseOne, h1, h2]
    have hc := callBack_err t (taskMain.phaseOne t s) (.wrap c "taskMain delete ctx error: ")
      (by rw [hp])
    have key := taskMain_of_callBack_err t s _ hc.1
    rw [hp] at hc key
    exact ⟨key.1, key.2.2.2.1.trans hc.2.2.2.1, key.2.1.trans hc.2.1⟩

/-- Witness of the amended C7: without a callback, force-close found at the start sets
both flags and force-close during the wait leaves them unset; with a callback that
replaces the error once it sees a response, force-close during the wait after `httpReq`
has stored the response gives the replacement and clears `isNotice`. -/
theorem taskMain_force_close_witness :
    ((taskMain plainTask forceAtEntrySchedule).err
        = some (.wrap (.new "conn pool close") "connPool close") ∧
      (taskMain plainTask forceAtEntrySchedule).enableRetry = true ∧
      (taskMain plainTask forceAtEntrySchedule).isNotice = true) ∧
    ((taskMain plainTask forceDuringSchedule).err
        = some (.wrap (.wrap (.new "conn pool close") "connPool close")
            "taskMain delete ctx error: ") ∧
      (taskMain plainTask forceDuringSchedule).enableRetry = false ∧
      (taskMain plainTask forceDuringSchedule).isNotice = false) ∧
    ((taskMain respVetoTask storedForceSchedule).err = some (.new "veto") ∧
      (taskMain respVetoTask storedForceSchedule).enableRetry = false ∧
      (taskMain respVetoTask storedForceSchedule).isNotice = false) :=
  ⟨(taskMain_force_close plainTask forceAtEntrySchedule
      (.wrap (.new "conn pool close") "connPool close")).1 rfl,
    (taskMain_force_close plainTask forceDuringSchedule
      (.wrap (.new "conn pool close") "connPool close")).2 rfl rfl,
    (taskMain_force_close respVetoTask storedForceSchedule
      (.wrap (.new "conn pool close") "connPool close")).2 rfl rfl⟩

/-- The callback invocations of `taskMain` are those of the first step of its deferred
function. -/
theorem taskMain_callBackCalls (t : ReqTask) (s : Schedule) :
    callBackCalls (taskMain t s).trace
      = callBackCalls (taskMain.callBack t (taskMain.phaseOne t s)).trace := by
  have h1 := (bodyWait_fields s (taskMain.cancelTask
    (taskMain.callBack t (taskMain.phaseOne t s)))).2.2.2.2
  have h2 : ∀ err, callBackCalls (closeSteps err) = [] := by
    intro err
    cases err <;> rfl
  have h3 : ∀ st : TaskState,
      callBackCalls (taskMain.cancelTask st).trace = callBackCalls st.trace := by
    intro st
    simp only [taskMain.cancelTask, callBackCalls_append]
    simp [callBackCalls]
  unfold taskMain taskMain.closeOnError
  simp only [callBackCalls_append, h1, h2, h3, List.append_nil]

/-- C8 fails as stated: a failure callback is configured, phase one succeeds and the
body then breaks off: `taskMain` ends with that error and the callback is never invoked. -/
theorem taskMain_body_error_no_callBack :
    keepTask.ErrCallBack.isSome = true ∧
    (taskMain keepTask brokenBodySchedule).err = some (.new "unexpected EOF") ∧
    callBackCalls (taskMain keepTask brokenBodySchedule).trace = [] := by
  decide

/-- C8, amended: for every task with a failure callback configured, the callback is
invoked, once and on that error, exactly when phase one of `taskMain` ends with a non-nil
error (`taskMain` then ends with a non-nil error too); it is not invoked for an error
that arises in the wait for the body, and never when `taskMain` succeeds. -/
theorem taskMain_callBack_calls (t : ReqTask) (s : Schedule) (cb : ReqCtx → Option GoError)
    (hcb : t.ErrCallBack = some cb) :
    callBackCalls (taskMain t s).trace =
      (match (taskMain.phaseOne t s).err with
        | some e => [e]
        | none => []) ∧
    ((taskMain.phaseOne t s).err ≠ none → (taskMain t s).err ≠ none) ∧
    ((taskMain t s).err = none → callBackCalls (taskMain t s).trace = []) := by
  have hcalls : callBackCalls (taskMain t s).trace =
      (match (taskMain.phaseOne t s).err with
        | some e => [e]
        | none => []) := by
    cases hp : (taskMain.phaseOne t s).err with
    | none =>
      rw [taskMain_callBackCalls, callBack_none t _ hp, (phaseOne_calls t s).2]
    | some e =>
      have hc := callBack_err t (taskMain.phaseOne t s) e hp
      rw [taskMain_callBackCalls, hc.2.2.2.2, hcb]
      simp only [callBackCalls_append, (phaseOne_calls t s).2]
      rfl
  have herr : (taskMain.phaseOne t s).err ≠ none → (taskMain t s).err ≠ none := by
    intro h
    cases hp : (taskMain.phaseOne t s).err with
    | none => exact absurd hp h
    | some e =>
      have hc := callBack_err t (taskMain.phaseOne t s) e hp
      rw [(taskMain_of_callBack_err t s _ hc.1).1]
      simp
  refine ⟨hcalls, herr, fun h => ?_⟩
  rw [hcalls]
  cases hp : (taskMain.phaseOne t s).err with
  | none => rfl
  | some e => exact absurd h (herr (by rw [hp]; simp))

/-- Witness of the amended C8: a callback is configured; it is shown the nil-response
error of phase one, and it is not called when only the body fails. -/
theorem taskMain_callBack_calls_witness :
    callBackCalls (taskMain keepTask failedSchedule).trace
        = [.new "body done response is nil"] ∧
    callBackCalls (taskMain keepTask brokenBodySchedule).trace = [] ∧
    (taskMain keepTask failedSchedule).err ≠ none ∧
    callBackCalls (taskMain keepTask cleanSchedule).trace = [] :=
  ⟨(taskMain_callBack_calls keepTask failedSchedule (fun _ => none) rfl).1,
    (taskMain_callBack_calls keepTask brokenBodySchedule (fun _ => none) rfl).1,
    (taskMain_callBack_calls keepTask failedSchedule (fun _ => none) rfl).2.1 (by decide),
    (taskMain_callBack_calls keepTask cleanSchedule (fun _ => none) rfl).2.2 (by decide)⟩

/-- C9: when the failure callback of `taskMain` is invoked on the error `e` of phase
one: if it returns nil, the error of the task stays `e` and `disRetry` and `isNotice`
keep the values they had when the callback was called; if it returns `e2`, the error
becomes `e2`, `disRetry` is set and `isNotice` is cleared. In both cases that error is
also the cause passed to `task.cnl`. -/
theorem taskMain_callBack_effect (t : ReqTask) (s : Schedule) (cb : ReqCtx → Option GoError)
    (e : GoError) (hcb : t.ErrCallBack = some cb)
    (he : (taskMain.phaseOne t s).err = some e) :
    callBackCalls (taskMain t s).trace = [e] ∧
    (cb { (taskMain.phaseOne t s).reqCtx with err := some e } = none →
      (taskMain t s).err = some e ∧
      (taskMain t s).disRetry = (taskMain.phaseOne t s).disRetry ∧
      (taskMain t s).isNotice = (taskMain.phaseOne t s).isNotice ∧
      .taskCnl e ∈ (taskMain t s).trace) ∧
    (∀ e2, cb { (taskMain.phaseOne t s).reqCtx with err := some e } = some e2 →
      (taskMain t s).err = some e2 ∧
      (taskMain t s).disRetry = true ∧
      (taskMain t s).isNotice = false ∧
      .taskCnl e2 ∈ (taskMain t s).trace) := by
  have hc := callBack_err t (taskMain.phaseOne t s) e he
  have key := taskMain_of_callBack_err t s _ hc.1
  have hv : t.veto (taskMain.phaseOne t s).reqCtx e
      = cb { (taskMain.phaseOne t s).reqCtx with err := some e } := by
    simp [ReqTask.veto, hcb]
  refine ⟨?_, fun h => ?_, fun e2 h => ?_⟩
  · rw [taskMain_callBackCalls, hc.2.2.2.2, hcb]
    simp only [callBackCalls_append, (phaseOne_calls t s).2]
    rfl
  · rw [hv, h] at hc key
    refine ⟨key.1, key.2.2.1.trans hc.2.2.1, key.2.1.trans hc.2.1, ?_⟩
    rw [key.2.2.2.2]
    simp
  · rw [hv, h] at hc key
    refine ⟨key.1, key.2.2.1.trans hc.2.2.1, key.2.1.trans hc.2.1, ?_⟩
    rw [key.2.2.2.2]
    simp

/-- Witness of C9: on the nil-response error a callback that returns nil leaves error
and flags alone, and one that returns "veto" replaces the error, sets `disRetry` and
clears `isNotice` (which was set before). -/
theorem taskMain_callBack_effect_witness :
    ((taskMain keepTask failedSchedule).err = some (.new "body done response is nil") ∧
      (taskMain keepTask failedSchedule).disRetry = false ∧
      (taskMain keepTask failedSchedule).isNotice = false ∧
      .taskCnl (.new "body done response is nil") ∈ (taskMain keepTask failedSchedule).trace) ∧
    ((taskMain vetoTask failedSchedule).err = some (.new "veto") ∧
      (taskMain vetoTask failedSchedule).disRetry = true ∧
      (taskMain vetoTask failedSchedule).isNotice = false ∧
      .taskCnl (.new "veto") ∈ (taskMain vetoTask failedSchedule).trace) :=
  ⟨(taskMain_callBack_effect keepTask failedSchedule (fun _ => none)
      (.new "body done response is nil") rfl rfl).2.1 rfl,
    (taskMain_callBack_effect vetoTask failedSchedule (fun _ => some (.new "veto"))
      (.new "body done response is nil") rfl rfl).2.2 (.new "veto") rfl⟩

/-- C10: `taskMain` closes the connection, once and with its final error (wrapped with
"taskMain close with error") as cause, exactly when its final error is non-nil, and the
worker loop then returns; when `taskMain` returns nil it has not closed the connection
and the worker loop goes on with the events that follow. -/
theorem taskMain_close_iff (t : ReqTask) (s : Schedule) (rest : List WorkerEvent) :
    (∀ e, (taskMain t s).err = some e →
      closeCalls (taskMain t s).trace = [.wrap e "taskMain close with error"] ∧
      rwMain.loop (.task (some (t, s)) :: rest) = (true, [taskMain t s])) ∧
    ((taskMain t s).err = none →
      closeCalls (taskMain t s).trace = [] ∧
      rwMain.loop (.task (some (t, s)) :: rest)
        = ((rwMain.loop rest).1, taskMain t s :: (rwMain.loop rest).2)) := by
  have hclose := taskMain_closeCalls t s
  refine ⟨fun e h => ⟨?_, ?_⟩, fun h => ⟨?_, ?_⟩⟩
  · rw [hclose, h]
  · simp [rwMain.loop, h]
  · rw [hclose, h]
  · simp [rwMain.loop, h]

/-- Witness of C10: a task whose body breaks off closes the connection and ends the
worker; a task whose body is read to its end does not, and the worker serves the next
task. -/
theorem taskMain_close_iff_witness :
    (closeCalls (taskMain plainTask brokenBodySchedule).trace
        = [.wrap (.new "unexpected EOF") "taskMain close with error"] ∧
      rwMain.loop [.task (some (plainTask, brokenBodySchedule)),
          .task (some (plainTask, cleanSchedule))]
        = (true, [taskMain plainTask brokenBodySchedule])) ∧
    (closeCalls (taskMain plainTask cleanSchedule).trace = [] ∧
      rwMain.loop [.task (some (plainTask, cleanSchedule)),
          .task (some (plainTask, brokenBodySchedule))]
        = ((rwMain.loop [.task (some (plainTask, brokenBodySchedule))]).1,
            taskMain plainTask cleanSchedule ::
              (rwMain.loop [.task (some (plainTask, brokenBodySchedule))]).2)) :=
  ⟨(taskMain_close_iff plainTask brokenBodySchedule
      [.task (some (plainTask, cleanSchedule))]).1 (.new "unexpected EOF") (by decide),
    (taskMain_close_iff plainTask cleanSchedule
      [.task (some (plainTask, brokenBodySchedule))]).2 (by decide)⟩

/-- C11 fails as stated: the connection has a transport, the executor's close fails and
the transport's `Close` succeeds: `CloseWithError` returns nil. -/
theorem CloseWithError_drops_executor_error :
    executorFailsConn.c.isSome = true ∧
    executorFailsConn.ConnCloseWithError (some (.new "connecotr Close close"))
      = some (.new "executor close failed") ∧
    executorFailsConn.CloseWithError (some (.new "connecotr Close close"))
      = (none, [.executorClose (some (.new "connecotr Close close")), .transportClose]) := by
  decide

/-- C11, amended: for every connection that has an underlying transport,
`connecotr.CloseWithError` calls the executor's `CloseWithError` with the cause, then the
transport's `Close`, and returns what the transport's `Close` returns, whatever the
executor returned; the executor's close error is returned when there is no transport. -/
theorem CloseWithError_result (obj : connecotr) (err : Option GoError) :
    (∀ closed, obj.c = some closed →
      obj.CloseWithError err = (closed, [.executorClose err, .transportClose])) ∧
    (obj.c = none →
      obj.CloseWithError err = (obj.ConnCloseWithError err, [.executorClose err])) := by
  constructor
  · intro closed h
    simp [connecotr.CloseWithError, h]
  · intro h
    simp [connecotr.CloseWithError, h]

/-- Witness of the amended C11: with a transport the result of its `Close` is returned;
without one, the executor's error. -/
theorem CloseWithError_result_witness :
    executorFailsConn.CloseWithError (some (.new "connecotr Close close"))
      = (none, [.executorClose (some (.new "connecotr Close close")), .transportClose]) ∧
    bareConn.CloseWithError (some (.new "connecotr Close close"))
      = (some (.new "executor close failed"),
          [.executorClose (some (.new "connecotr Close close"))]) :=
  ⟨(CloseWithError_result executorFailsConn (some (.new "connecotr Close close"))).1 none rfl,
    (CloseWithError_result bareConn (some (.new "connecotr Close close"))).2 rfl⟩

/-! ### The SOCKS5 address codec -/

theorem bufferWriter_writeAll (buf : List Nat) (chunks : List (List Nat)) :
    bufferWriter.writeAll buf chunks = (buf ++ chunks.flatten, none) := by
  induction chunks generalizing buf with
  | nil => simp [Writer.writeAll]
  | cons c rest ih =>
    have hw : bufferWriter.Write buf c = (buf ++ c, none) := rfl
    simp only [Writer.writeAll, hw, ih, List.flatten_cons, List.append_assoc]

theorem To4_length (ip ip4 : List Nat) (h : IP.To4 ip = some ip4) : ip4.length = 4 := by
  unfold IP.To4 at h
  split at h
  · simp only [Option.some.injEq] at h
    subst h
    assumption
  · split at h
    · simp only [Option.some.injEq] at h
      subst h
      simp
      omega
    · simp at h

theorem To4_equal (ip ip4 : List Nat) (h : IP.To4 ip = some ip4) :
    IP.Equal ip4 ip = true ∧ (ip.length = 4 → ip4 = ip) := by
  have hl := To4_length ip ip4 h
  unfold IP.To4 at h
  split at h
  · simp only [Option.some.injEq] at h
    subst h
    simp [IP.Equal]
  · rename_i h4
    split at h
    · rename_i h16
      simp only [Option.some.injEq] at h
      subst h
      refine ⟨?_, fun h => absurd h h4⟩
      have hne : ¬ (ip.drop 12).length = ip.length := by omega
      simp only [IP.Equal, hne, if_false, hl, h16.1, and_self, if_true, h16.2]
      simp
    · simp at h

theorem readFull_append (a b : List Nat) (n : Nat) (h : a.length = n) :
    readFull (a ++ b) n = (.ok a, b) := by
  subst h
  simp [readFull]

theorem readPort_portBytes (a : Address) (port : Int) (h0 : 0 ≤ port) (h1 : port ≤ 65535) :
    ReadUdpAddr.port a (portBytes port) = ⟨{ a with Port := port }, none, []⟩ := by
  have hp : (port % 65536).toNat = port.toNat := by
    rw [Int.emod_eq_of_lt h0 (by omega)]
  have hr : readFull (portBytes port) 2 = (.ok (portBytes port), []) := by
    have := readFull_append (portBytes port) [] 2 (by simp [portBytes])
    simpa using this
  simp only [ReadUdpAddr.port, hr]
  simp only [portBytes, hp, List.getD_cons_zero, List.getD_cons_succ]
  have : ((port.toNat / 256 * 256 + port.toNat % 256 : Nat) : Int) = port := by
    rw [Nat.div_add_mod']
    omega
  rw [this]

theorem WriteUdpAddr_buffer (addr : Address) (buf : List Nat) (chunks : List (List Nat))
    (h : WriteUdpAddr.chunks addr = .ok chunks) :
    WriteUdpAddr bufferWriter buf addr
      = (buf ++ chunks.flatten ++ portBytes addr.Port, none) := by
  simp [WriteUdpAddr, h, bufferWriter_writeAll]

/-- Reading back an address record that holds a raw IP of 4 or of 16 bytes. -/
theorem ReadUdpAddr_ip (atyp : Nat) (ip : List Nat) (port : Int)
    (hat : (atyp = 1 ∧ ip.length = 4) ∨ (atyp = 4 ∧ ip.length = 16))
    (h0 : 0 ≤ port) (h1 : port ≤ 65535) :
    ReadUdpAddr ([atyp] ++ ip ++ portBytes port) = ⟨⟨[], some ip, port⟩, none, []⟩ := by
  rcases hat with ⟨ha, hl⟩ | ⟨ha, hl⟩
  · subst ha
    simp [ReadUdpAddr, readFull_append ip (portBytes port) 4 hl, readPort_portBytes _ port h0 h1]
  · subst ha
    simp [ReadUdpAddr, readFull_append ip (portBytes port) 16 hl,
      readPort_portBytes _ port h0 h1]

/-- Reading back an address record that holds a domain name of at most 255 bytes. -/
theorem ReadUdpAddr_name (name : List Nat) (port : Int) (hl : name.length ≤ 255)
    (h0 : 0 ≤ port) (h1 : port ≤ 65535) :
    ReadUdpAddr ([3, name.length % 256] ++ name ++ portBytes port)
      = ⟨⟨name, none, port⟩, none, []⟩ := by
  have hm : name.length % 256 = name.length := Nat.mod_eq_of_lt (by omega)
  simp [ReadUdpAddr, hm, readFull_append name (portBytes port) name.length rfl,
    readPort_portBytes _ port h0 h1]

/-- C12: for every address that is an IPv4 address, an IPv6 address or a domain name of
at most 255 bytes, and every port in 0..65535, `WriteUdpAddr` into an empty buffer succeeds
and `ReadUdpAddr` on the bytes written succeeds, consumes all of them, and returns the same
port and the same IP (equal in the sense of `net.IP.Equal`, and the same bytes unless an
IPv4 address was given in its 16-byte form) or the same name. -/
theorem udpAddr_roundtrip (addr : Address)
    (hkind : addr.isIPv4 = true ∨ addr.isIPv6 = true ∨ addr.isDomain = true)
    (h0 : 0 ≤ addr.Port) (h1 : addr.Port ≤ 65535) :
    ∃ out back, WriteUdpAddr bufferWriter [] addr = (out, none) ∧
      ReadUdpAddr out = ⟨back, none, []⟩ ∧
      back.Port = addr.Port ∧
      (∀ ip, addr.IP = some ip →
        ∃ ip2, back.IP = some ip2 ∧ IP.Equal ip2 ip = true ∧
          (ip.length = ip2.length → ip2 = ip)) ∧
      (addr.IP = none → back.Name = addr.Name ∧ back.IP = none) := by
  cases hip : addr.IP with
  | some ip =>
    cases h4 : IP.To4 ip with
    | some ip4 =>
      have hl := To4_length ip ip4 h4
      have hc : WriteUdpAddr.chunks addr = .ok [[1], ip4] := by
        simp [WriteUdpAddr.chunks, hip, h4]
      refine ⟨_, ⟨[], some ip4, addr.Port⟩, WriteUdpAddr_buffer addr [] _ hc, ?_, rfl, ?_, ?_⟩
      · simpa using ReadUdpAddr_ip 1 ip4 addr.Port (Or.inl ⟨rfl, hl⟩) h0 h1
      · intro ip0 hip0
        simp only [Option.some.injEq] at hip0
        subst hip0
        exact ⟨ip4, rfl, (To4_equal ip ip4 h4).1,
          fun h => (To4_equal ip ip4 h4).2 (by omega)⟩
      · intro h; simp at h
    | none =>
      have h16 : ip.length = 16 := by
        rcases hkind with h | h | h
        · simp [Address.isIPv4, hip, h4] at h
        · simpa [Address.isIPv6, hip, h4] using h
        · simp [Address.isDomain, hip] at h
      have hc : WriteUdpAddr.chunks addr = .ok [[4], ip] := by
        have h4l : ¬ ip.length = 4 := by omega
        simp [WriteUdpAddr.chunks, hip, h4, IP.To16, h16]
      refine ⟨_, ⟨[], some ip, addr.Port⟩, WriteUdpAddr_buffer addr [] _ hc, ?_, rfl, ?_, ?_⟩
      · simpa using ReadUdpAddr_ip 4 ip addr.Port (Or.inr ⟨rfl, h16⟩) h0 h1
      · intro ip0 hip0
        simp only [Option.some.injEq] at hip0
        subst hip0
        exact ⟨ip, rfl, by simp [IP.Equal], fun _ => rfl⟩
      · intro h; simp at h
  | none =>
    have hd : addr.Name ≠ [] ∧ addr.Name.length ≤ 255 := by
      rcases hkind with h | h | h
      · simp [Address.isIPv4, hip] at h
      · simp [Address.isIPv6, hip] at h
      · simpa [Address.isDomain, hip] using h
    have hc : WriteUdpAddr.chunks addr
        = .ok [[3, addr.Name.length % 256], addr.Name] := by
      have : ¬ addr.Name.length > 255 := by omega
      simp [WriteUdpAddr.chunks, hip, hd.1, this]
    refine ⟨_, ⟨addr.Name, none, addr.Port⟩, WriteUdpAddr_buffer addr [] _ hc, ?_, rfl, ?_, ?_⟩
    · simpa using ReadUdpAddr_name addr.Name addr.Port hd.2 h0 h1
    · intro ip0 hip0; simp at hip0
    · intro _; exact ⟨rfl, rfl⟩

/-- Witness of C12: the round trip of 192.0.2.7:8080, given in the 16-byte form. -/
theorem udpAddr_roundtrip_witness :
    ∃ out back, WriteUdpAddr bufferWriter [] ipv4MappedAddr = (out, none) ∧
      ReadUdpAddr out = ⟨back, none, []⟩ ∧
      back.Port = ipv4MappedAddr.Port ∧
      (∀ ip, ipv4MappedAddr.IP = some ip →
        ∃ ip2, back.IP = some ip2 ∧ IP.Equal ip2 ip = true ∧
          (ip.length = ip2.length → ip2 = ip)) ∧
      (ipv4MappedAddr.IP = none → back.Name = ipv4MappedAddr.Name ∧ back.IP = none) :=
  udpAddr_roundtrip ipv4MappedAddr (Or.inl (by decide)) (by decide) (by decide)

/-- C13: for every address without an IP whose domain name is 256 bytes long or longer,
`WriteUdpAddr` returns an error (and writes nothing), whatever the writer. -/
theorem WriteUdpAddr_name_too_long {σ : Type} (W : Writer σ) (w : σ) (addr : Address)
    (hip : addr.IP = none) (hlen : 256 ≤ addr.Name.length) :
    WriteUdpAddr W w addr = (w, some (.new "errStringTooLong")) := by
  have hne : addr.Name ≠ [] := by
    intro h
    rw [h] at hlen
    simp at hlen
  have hgt : addr.Name.length > 255 := by omega
  simp [WriteUdpAddr, WriteUdpAddr.chunks, hip, hne, hgt]

/-- Witness of C13: a name of exactly 256 bytes. -/
theorem WriteUdpAddr_name_too_long_witness :
    WriteUdpAddr bufferWriter [] longNameAddr = ([], some (.new "errStringTooLong")) :=
  WriteUdpAddr_name_too_long bufferWriter [] longNameAddr rfl
    (by show 256 ≤ (List.replicate 256 97).length; rw [List.length_replicate])

/-- C14: into a buffer, `WriteUdpAddr` appends exactly the address record: for an IPv4
address the byte 0x01 and the 4 address bytes; for an IPv6 address the byte 0x04 and the
16 address bytes; for a domain name of at most 255 bytes the byte 0x03, one byte equal to
the length of the name, and the bytes of the name; in each case followed by the two port
bytes, which for a port in 0..65535 are its high and its low byte. -/
theorem WriteUdpAddr_record (addr : Address) (buf : List Nat) :
    (∀ ip ip4, addr.IP = some ip → IP.To4 ip = some ip4 →
      ip4.length = 4 ∧
      WriteUdpAddr bufferWriter buf addr
        = (buf ++ [1] ++ ip4 ++ portBytes addr.Port, none)) ∧
    (∀ ip, addr.IP = some ip → IP.To4 ip = none → ip.length = 16 →
      WriteUdpAddr bufferWriter buf addr
        = (buf ++ [4] ++ ip ++ portBytes addr.Port, none)) ∧
    (addr.IP = none → addr.Name ≠ [] → addr.Name.length ≤ 255 →
      WriteUdpAddr bufferWriter buf addr
        = (buf ++ [3, addr.Name.length] ++ addr.Name ++ portBytes addr.Port, none)) ∧
    (0 ≤ addr.Port → addr.Port ≤ 65535 →
      portBytes addr.Port = [addr.Port.toNat / 256, addr.Port.toNat % 256] ∧
      addr.Port.toNat / 256 < 256 ∧
      ((addr.Port.toNat / 256 * 256 + addr.Port.toNat % 256 : Nat) : Int) = addr.Port) := by
  refine ⟨fun ip ip4 hip h4 => ⟨To4_length ip ip4 h4, ?_⟩, fun ip hip h4 h16 => ?_,
    fun hip hne hl => ?_, fun h0 h1 => ⟨?_, ?_, ?_⟩⟩
  · have hc : WriteUdpAddr.chunks addr = .ok [[1], ip4] := by
      simp [WriteUdpAddr.chunks, hip, h4]
    simpa using WriteUdpAddr_buffer addr buf _ hc
  · have hc : WriteUdpAddr.chunks addr = .ok [[4], ip] := by
      have h4l : ¬ ip.length = 4 := by omega
      simp [WriteUdpAddr.chunks, hip, h4, IP.To16, h16]
    simpa using WriteUdpAddr_buffer addr buf _ hc
  · have hc : WriteUdpAddr.chunks addr = .ok [[3, addr.Name.length], addr.Name] := by
      have : ¬ addr.Name.length > 255 := by omega
      have hm : addr.Name.length % 256 = addr.Name.length := Nat.mod_eq_of_lt (by omega)
      simp [WriteUdpAddr.chunks, hip, hne, this, hm]
    simpa using WriteUdpAddr_buffer addr buf _ hc
  · have hp : (addr.Port % 65536).toNat = addr.Port.toNat := by
      rw [Int.emod_eq_of_lt h0 (by omega)]
    simp [portBytes, hp]
  · omega
  · rw [Nat.div_add_mod']
    omega

/-- Witness of C14: the records of 192.0.2.7:8080, [2001:db8::1]:443 and a.io:53. -/
theorem WriteUdpAddr_record_witness :
    (([192, 0, 2, 7] : List Nat).length = 4 ∧
      WriteUdpAddr bufferWriter [] ipv4Addr
        = ([] ++ [1] ++ [192, 0, 2, 7] ++ portBytes ipv4Addr.Port, none)) ∧
    WriteUdpAddr bufferWriter [] ipv6Addr
      = ([] ++ [4] ++ [32, 1, 13, 184, 0, 0, 0, 0, 0, 0, 0, 0, 0, 0, 0, 1]
          ++ portBytes ipv6Addr.Port, none) ∧
    WriteUdpAddr bufferWriter [] domainAddr
      = ([] ++ [3, domainAddr.Name.length] ++ domainAddr.Name
          ++ portBytes domainAddr.Port, none) ∧
    (portBytes ipv4Addr.Port = [ipv4Addr.Port.toNat / 256, ipv4Addr.Port.toNat % 256] ∧
      ipv4Addr.Port.toNat / 256 < 256 ∧
      ((ipv4Addr.Port.toNat / 256 * 256 + ipv4Addr.Port.toNat % 256 : Nat) : Int)
        = ipv4Addr.Port) :=
  ⟨(WriteUdpAddr_record ipv4Addr []).1 [192, 0, 2, 7] [192, 0, 2, 7] rfl rfl,
    (WriteUdpAddr_record ipv6Addr []).2.1 [32, 1, 13, 184, 0, 0, 0, 0, 0, 0, 0, 0, 0, 0, 0, 1]
      rfl rfl rfl,
    (WriteUdpAddr_record domainAddr []).2.2.1 rfl (by decide) (by decide),
    (WriteUdpAddr_record ipv4Addr []).2.2.2 (by decide) (by decide)⟩

/-- C15: when the body-done token is what ends the wait for the body, in the first
`select` or, for a 101 response whose request context ended with the no-error cause, in
the second one, `taskMain` returns nil and does not close the connection if the cause of
the token is the no-error cause, and returns that cause and closes the connection with it
for every other cause. -/
theorem taskMain_body_done (t : ReqTask) (s : Schedule) (r : HttpResponse) (c : GoError)
    (hentry : s.forceAtEntry = none) (hdone : s.header = .done)
    (hresp : s.doRequest.response = some r) (hctx : s.doRequest.bodyCtx = true)
    (hbody : s.body = .bodyDone c ∨
      (s.body = .reqDone .errNoErr ∧ r.StatusCode = 101 ∧ s.upgrade = .bodyDone c)) :
    (c = .errNoErr →
      (taskMain t s).err = none ∧ closeCalls (taskMain t s).trace = []) ∧
    (c ≠ .errNoErr →
      (taskMain t s).err = some c ∧
      closeCalls (taskMain t s).trace = [.wrap c "taskMain close with error"]) := by
  have herr : (taskMain t s).err = if c = .errNoErr then none else some c := by
    rcases hbody with hb | ⟨hb, hst, hu⟩
    · by_cases hc : c = .errNoErr <;>
        simp [taskMain, taskMain.phaseOne, taskMain.callBack, taskMain.cancelTask,
          taskMain.bodyWait, taskMain.closeOnError, httpReq, wrapBody, causeErr, hentry,
          hdone, hresp, hctx, hb, hc]
    · by_cases hc : c = .errNoErr <;>
        simp [taskMain, taskMain.phaseOne, taskMain.callBack, taskMain.cancelTask,
          taskMain.bodyWait, taskMain.upgradeWait, taskMain.closeOnError, httpReq, wrapBody,
          causeErr, hentry, hdone, hresp, hctx, hb, hst, hu, hc]
  have hclose := taskMain_closeCalls t s
  constructor
  · intro hc
    rw [hclose, herr]
    simp [hc]
  · intro hc
    rw [hclose, herr]
    simp [hc]

/-- Witness of C15: a body read to its end leaves the connection open; a body that
breaks off closes it with the error. -/
theorem taskMain_body_done_witness :
    ((taskMain plainTask cleanSchedule).err = none ∧
      closeCalls (taskMain plainTask cleanSchedule).trace = []) ∧
    ((taskMain plainTask brokenBodySchedule).err = some (.new "unexpected EOF") ∧
      closeCalls (taskMain plainTask brokenBodySchedule).trace
        = [.wrap (.new "unexpected EOF") "taskMain close with error"]) :=
  ⟨(taskMain_body_done plainTask cleanSchedule ⟨200, some (.raw 0)⟩ .errNoErr rfl rfl rfl rfl
      (Or.inl rfl)).1 rfl,
    (taskMain_body_done plainTask brokenBodySchedule ⟨200, some (.raw 0)⟩
      (.new "unexpected EOF") rfl rfl rfl rfl (Or.inl rfl)).2 (by decide)⟩

/-- An attempt of the retry loop that meets the exit test is the last attempt, and its
error and response are what the loop returns, wherever in the sequence it comes. -/
theorem retryLoop_stops_last {ρ σ υ : Type} (request : σ → υ → Attempt ρ × σ) (u : υ)
    (M : Int) :
    ∀ (fuel : Nat) (i : Int) (resp : Option ρ) (err : Option GoError) (w : σ)
      (pre post : List (Attempt ρ)) (a : Attempt ρ),
      (Client.retryLoop request u M fuel i resp err w).attempts = pre ++ a :: post →
      a.stops = true →
      post = [] ∧ (Client.retryLoop request u M fuel i resp err w).err = a.err ∧
        (Client.retryLoop request u M fuel i resp err w).response = some a.response := by
  intro fuel
  induction fuel with
  | zero =>
    intro i resp err w pre post a h _
    simp [Client.retryLoop] at h
  | succ n ih =>
    intro i resp err w pre post a h hs
    rw [Client.retryLoop] at h ⊢
    by_cases hi : i ≤ M
    · simp only [hi, if_true] at h ⊢
      by_cases hstop : (request w u).1.stops = true
      · simp only [hstop, if_true] at h ⊢
        cases pre with
        | nil =>
          simp only [List.nil_append, List.cons.injEq] at h
          obtain ⟨ha, hpost⟩ := h
          subst ha
          exact ⟨hpost.symm, rfl, rfl⟩
        | cons x xs =>
          simp only [List.cons_append, List.cons.injEq] at h
          have := h.2
          simp at this
      · simp only [hstop, Bool.false_eq_true, if_false] at h ⊢
        cases pre with
        | nil =>
          simp only [List.nil_append, List.cons.injEq] at h
          rw [← h.1] at hs
          exact absurd hs hstop
        | cons x xs =>
          simp only [List.cons_append, List.cons.injEq] at h
          exact ih _ _ _ _ xs post a h.2 hs
    · simp [hi] at h

/-- Every attempt of the retry loop is an outcome of the executor. -/
theorem retryLoop_attempts_mem {ρ σ υ : Type} (request : σ → υ → Attempt ρ × σ) (u : υ)
    (M : Int) :
    ∀ (fuel : Nat) (i : Int) (resp : Option ρ) (err : Option GoError) (w : σ),
      ∀ a ∈ (Client.retryLoop request u M fuel i resp err w).attempts,
        ∃ s, a = (request s u).1 := by
  intro fuel
  induction fuel with
  | zero => intro i resp err w a h; simp [Client.retryLoop] at h
  | succ n ih =>
    intro i resp err w a h
    rw [Client.retryLoop] at h
    by_cases hi : i ≤ M
    · simp only [hi, if_true] at h
      by_cases hstop : (request w u).1.stops = true
      · simp only [hstop, if_true, List.mem_singleton] at h
        exact ⟨w, h⟩
      · simp only [hstop, Bool.false_eq_true, if_false, List.mem_cons] at h
        rcases h with h | h
        · exact ⟨w, h⟩
        · exact ih _ _ _ _ a h
    · simp [hi] at h

/-- C16: when an attempt ends in an error `e` and `ErrCallBack` returns a non-nil error
`err2`, the attempt returns `tools.WrapError(errFatal, err2)`, which is tagged fatal; and
in `Client.Request` such an attempt, whether it is the first or comes after any number of
failed attempts, is the last attempt, and its error and response are returned. Every
attempt of `Client.Request` is an outcome of `Client.request`, and an open client with a
usable URL and `MaxRetries ≥ 0` makes a first attempt. -/
theorem request_veto_is_fatal {ρ σ υ : Type} (c : Call υ) (runs : σ → υ → RequestRun ρ × σ)
    (w : σ) (run : RequestRun ρ) (cb : ρ → GoError → Option GoError) (e err2 : GoError)
    (hsettled : Client.request.settled run = some e)
    (hcb : run.ErrCallBack = some cb)
    (hveto : cb run.response e = some err2) :
    (Client.request run).err = some (.wrapErr .errFatal err2) ∧
    (GoError.wrapErr .errFatal err2).isFatal = true ∧
    (∀ pre post,
      (Client.Request c (fun s v => (Client.request (runs s v).1, (runs s v).2)) w).attempts
        = pre ++ Client.request run :: post →
      post = [] ∧
      (Client.Request c (fun s v => (Client.request (runs s v).1, (runs s v).2)) w).err
        = some (.wrapErr .errFatal err2) ∧
      (Client.Request c (fun s v => (Client.request (runs s v).1, (runs s v).2)) w).response
        = some run.response) ∧
    (∀ u, c.uhref = .ok u →
      ∀ a ∈ (Client.Request c
          (fun s v => (Client.request (runs s v).1, (runs s v).2)) w).attempts,
        ∃ s, a = Client.request (runs s u).1) ∧
    (∀ u, c.closed = false → c.uhref = .ok u → 0 ≤ c.MaxRetries →
      (Client.Request c
          (fun s v => (Client.request (runs s v).1, (runs s v).2)) w).attempts.head?
        = some (Client.request (runs w u).1)) := by
  have herr : (Client.request run).err = some (.wrapErr .errFatal err2) := by
    simp [Client.request, Client.request.deferred, hsettled, hcb, hveto]
  have hstop : (Client.request run).stops = true := by
    simp [Attempt.stops, herr, GoError.isFatal]
  refine ⟨herr, rfl, fun pre post h => ?_, fun u hurl a ha => ?_,
    fun u hopen hurl hM => Request_head c _ w u hopen hurl hM⟩
  · unfold Client.Request at h ⊢
    by_cases hc : c.closed = true
    · simp [hc] at h
    · simp only [hc, Bool.false_eq_true, if_false] at h ⊢
      cases hu : c.uhref with
      | error e0 => simp [hu] at h
      | ok u =>
        simp only [hu] at h ⊢
        obtain ⟨h1, h2, h3⟩ := retryLoop_stops_last _ u c.MaxRetries _ 0 none none w
          pre post _ h hstop
        exact ⟨h1, h2.trans herr, h3⟩
  · unfold Client.Request at ha
    by_cases hc : c.closed = true
    · simp [hc] at ha
    · simp only [hc, Bool.false_eq_true, if_false, hurl] at ha
      exact retryLoop_attempts_mem _ u c.MaxRetries _ 0 none none w a ha

/-- The attempts of the sample call with the executor `lateVetoRuns`: two attempts whose
error the callback keeps, then the attempt it vetoes. -/
theorem lateVeto_attempts :
    (Client.Request sampleCall
      (fun s v => (Client.request (lateVetoRuns s v).1, (lateVetoRuns s v).2)) 0).attempts
      = [Client.request (lateVetoRun 0), Client.request (lateVetoRun 1)]
          ++ Client.request (lateVetoRun 2) :: [] := by
  rfl

/-- Witness of C16: with `MaxRetries = 3`, two attempts fail and are retried, the
callback answers "stop" on the third, and that attempt is the last: its wrapped
`errFatal` and its response are returned. -/
theorem request_veto_is_fatal_witness :
    (Client.request (lateVetoRun 2)).err = some (.wrapErr .errFatal (.new "stop")) ∧
    (([] : List (Attempt Nat)) = [] ∧
      (Client.Request sampleCall
        (fun s v => (Client.request (lateVetoRuns s v).1, (lateVetoRuns s v).2)) 0).err
        = some (.wrapErr .errFatal (.new "stop")) ∧
      (Client.Request sampleCall
        (fun s v => (Client.request (lateVetoRuns s v).1, (lateVetoRuns s v).2)) 0).response
        = some (lateVetoRun 2).response) ∧
    (∃ s, Client.request (lateVetoRun 1)
      = Client.request (lateVetoRuns s "http://a.example/").1) ∧
    (Client.Request sampleCall
        (fun s v => (Client.request (lateVetoRuns s v).1, (lateVetoRuns s v).2)) 0).attempts.head?
      = some (Client.request (lateVetoRuns 0 "http://a.example/").1) :=
  ⟨(request_veto_is_fatal sampleCall lateVetoRuns 0 (lateVetoRun 2)
      (fun resp _ => if resp < 2 then none else some (.new "stop"))
      (.new "client do error") (.new "stop") rfl rfl rfl).1,
    (request_veto_is_fatal sampleCall lateVetoRuns 0 (lateVetoRun 2)
      (fun resp _ => if resp < 2 then none else some (.new "stop"))
      (.new "client do error") (.new "stop") rfl rfl rfl).2.2.1
      [Client.request (lateVetoRun 0), Client.request (lateVetoRun 1)] [] lateVeto_attempts,
    (request_veto_is_fatal sampleCall lateVetoRuns 0 (lateVetoRun 2)
      (fun resp _ => if resp < 2 then none else some (.new "stop"))
      (.new "client do error") (.new "stop") rfl rfl rfl).2.2.2.1
      "http://a.example/" rfl (Client.request (lateVetoRun 1))
      (by rw [lateVeto_attempts]; simp),
    (request_veto_is_fatal sampleCall lateVetoRuns 0 (lateVetoRun 2)
      (fun resp _ => if resp < 2 then none else some (.new "stop"))
      (.new "client do error") (.new "stop") rfl rfl rfl).2.2.2.2
      "http://a.example/" rfl rfl (by decide)⟩

/-- C17, at one interleaving: two workers leave a pool whose counter is 2; when both
have decremented the counter before either loads it, both find it at zero and both call
`connPool.close`; when one worker finishes before the other starts, `connPool.close` is
called once. The counter ends at zero in both cases. -/
theorem pool_close_called_twice :
    (twoWorkers.run [0, 1, 0, 1, 0, 1]) = ⟨0, 2, [.gone, .gone]⟩ ∧
    (twoWorkers.run [0, 0, 0, 1, 1, 1]) = ⟨0, 1, [.gone, .gone]⟩ := by
  decide

/-- C18: whenever `rwMain` returns, alone or beside other workers, its deferred function
closes the connection, decrements the counter by exactly 1, and then calls
`connPool.close` (registry removal and force-close of the pool) exactly when the counter,
loaded after the decrement, is zero or below; `rwMain` returns on a force-close, on a nil
task and on a task that fails. -/
theorem rwMain_exit (total others : Int) (events : List WorkerEvent) :
    ((rwMain total others events).exited = true →
      (rwMain total others events).total = total - 1 + others ∧
      (rwMain total others events).trace =
        ((rwMain total others events).runs.map fun r => r.trace).flatten ++
          [.closeConn (.new "connPool rwMain close"), .totalAdd (-1)] ++
          (if total - 1 + others ≤ 0 then
            [.registryDel, .poolForceCnl (.wrap (.new "conn pool close") "connPool close")]
          else [])) ∧
    ((rwMain total others events).exited = false →
      (rwMain total others events).total = total ∧
      (rwMain total others events).trace
        = ((rwMain total others events).runs.map fun r => r.trace).flatten) ∧
    (rwMain total others (.force :: events)).exited = true ∧
    (rwMain total others (.task none :: events)).exited = true ∧
    (∀ t s, (taskMain t s).err ≠ none →
      (rwMain total others (.task (some (t, s)) :: events)).exited = true) := by
  refine ⟨fun h => ?_, fun h => ?_, ?_, ?_, fun t s h => ?_⟩
  · unfold rwMain at h ⊢
    cases hl : (rwMain.loop events).1 with
    | false => simp [hl] at h
    | true => simp [hl, rwMain.deferred, connPool.close]
  · unfold rwMain at h ⊢
    cases hl : (rwMain.loop events).1 with
    | false => simp [hl]
    | true => simp [hl] at h
  · simp [rwMain, rwMain.loop]
  · simp [rwMain, rwMain.loop]
  · cases he : (taskMain t s).err with
    | none => exact absurd he h
    | some e => simp [rwMain, rwMain.loop, he]

/-- Witness of C18: the last worker of a pool (counter 1) is force-closed and closes the
pool; a worker that finds the counter at 2 and runs alone leaves the pool open; the same
worker closes the pool when another worker decrements the counter before it loads it. -/
theorem rwMain_exit_witness :
    ((rwMain 1 0 [.force]).total = 1 - 1 + 0 ∧
      (rwMain 1 0 [.force]).trace =
        ((rwMain 1 0 [.force]).runs.map fun r => r.trace).flatten ++
          [.closeConn (.new "connPool rwMain close"), .totalAdd (-1)] ++
          (if (1 : Int) - 1 + 0 ≤ 0 then
            [.registryDel, .poolForceCnl (.wrap (.new "conn pool close") "connPool close")]
          else [])) ∧
    ((rwMain 2 (-1) [.force]).total = 2 - 1 + -1 ∧
      (rwMain 2 (-1) [.force]).trace =
        ((rwMain 2 (-1) [.force]).runs.map fun r => r.trace).flatten ++
          [.closeConn (.new "connPool rwMain close"), .totalAdd (-1)] ++
          (if (2 : Int) - 1 + -1 ≤ 0 then
            [.registryDel, .poolForceCnl (.wrap (.new "conn pool close") "connPool close")]
          else [])) ∧
    (rwMain 2 0 [.task (some (plainTask, brokenBodySchedule))]).exited = true ∧
    ((rwMain 2 0 [.task (some (plainTask, cleanSchedule))]).total = 2 ∧
      (rwMain 2 0 [.task (some (plainTask, cleanSchedule))]).trace
        = ((rwMain 2 0 [.task (some (plainTask, cleanSchedule))]).runs.map
            fun r => r.trace).flatten) :=
  ⟨(rwMain_exit 1 0 [.force]).1 (by decide),
    (rwMain_exit 2 (-1) [.force]).1 (by decide),
    (rwMain_exit 2 0 []).2.2.2.2 plainTask brokenBodySchedule (by decide),
    (rwMain_exit 2 0 [.task (some (plainTask, cleanSchedule))]).2.1 (by decide)⟩

/-- The steps of two workers that leave a pool whose counter is 2, evaluated: the one
that runs alone leaves the pool open, the one that is overtaken by the other worker's
decrement closes it. -/
theorem rwMain_exit_sample :
    (rwMain 2 0 [.force]).trace
      = [.closeConn (.new "connPool rwMain close"), .totalAdd (-1)] ∧
    (rwMain 2 (-1) [.force]).trace
      = [.closeConn (.new "connPool rwMain close"), .totalAdd (-1), .registryDel,
          .poolForceCnl (.wrap (.new "conn pool close") "connPool close")] := by
  decide

/-! ### orderMap -/

/-- The sample calls leave the keys c, a, d, in this order, and `a` holds the value of
its second `Set`. -/
theorem orderMap_run_sample :
    (orderMap.run sampleCalls).order = ["c", "a", "d"] ∧
    (orderMap.run sampleCalls).data "a" = some 4 ∧
    (orderMap.run sampleCalls).data "b" = none ∧
    lastSet sampleCalls "a" = some (3, 4) := by
  decide

/-- The map after a list of calls that has the most recent call first. -/
theorem orderMap_run_eq {V : Type} (calls : List (MapCall V)) :
    orderMap.run calls = calls.reverse.foldr (fun c m => orderMap.call m c) NewOrderMap := by
  simp [orderMap.run, List.foldr_reverse]

/-- The positions that `lastSetRev` reports lie within the list of calls. -/
theorem lastSetRev_lt {V : Type} (rev : List (MapCall V)) (k : String) (i : Nat) (v : V)
    (h : lastSetRev rev k = some (i, v)) : i < rev.length := by
  induction rev with
  | nil => simp [lastSetRev] at h
  | cons c older ih =>
    cases c with
    | set k2 v2 =>
      simp only [lastSetRev] at h
      split at h
      · simp only [Option.some.injEq, Prod.mk.injEq] at h
        simp [← h.1]
      · have := ih h
        simp
        omega
    | del k2 =>
      simp only [lastSetRev] at h
      split at h
      · simp at h
      · have := ih h
        simp
        omega

/-- The invariant of `orderMap` under `Set` and `Del`, over the calls most recent first:
`data` holds what the most recent call on each key stored, `order` holds the keys that
have a value, and it lists them by the position of their most recent `Set`. -/
theorem orderMap_invariant {V : Type} (rev : List (MapCall V)) :
    (∀ k, (rev.foldr (fun c m => orderMap.call m c) NewOrderMap).data k
        = (lastSetRev rev k).map fun p => p.2) ∧
    (∀ k, k ∈ (rev.foldr (fun c m => orderMap.call m c) NewOrderMap).order
        ↔ (lastSetRev rev k).isSome = true) ∧
    (rev.foldr (fun c m => orderMap.call m c) NewOrderMap).order.Pairwise
      (fun a b => ∃ i j, (lastSetRev rev a).map (fun p => p.1) = some i ∧
        (lastSetRev rev b).map (fun p => p.1) = some j ∧ i < j) := by
  induction rev with
  | nil =>
    refine ⟨fun k => rfl, fun k => ?_, ?_⟩
    · simp [NewOrderMap, lastSetRev]
    · simp [NewOrderMap]
  | cons c older ih =>
    obtain ⟨hdata, hmem, hord⟩ := ih
    simp only [List.foldr_cons]
    generalize List.foldr (fun c m => orderMap.call m c) NewOrderMap older = m
      at hdata hmem hord ⊢
    cases c with
    | set key val =>
      refine ⟨fun k => ?_, fun k => ?_, ?_⟩
      · by_cases hk : k = key
        · subst hk
          simp [orderMap.call, orderMap.Set, lastSetRev]
        · have hk2 : ¬ key = k := fun h => hk h.symm
          simp [orderMap.call, orderMap.Set, orderMap.Del, lastSetRev, hk, hk2, hdata]
      · by_cases hk : k = key
        · subst hk
          simp [orderMap.call, orderMap.Set, lastSetRev]
        · have hk2 : ¬ key = k := fun h => hk h.symm
          simp [orderMap.call, orderMap.Set, orderMap.Del, DelSliceVals, lastSetRev, hk, hk2,
            hmem]
      · simp only [orderMap.call, orderMap.Set, orderMap.Del, DelSliceVals]
        rw [List.pairwise_append]
        refine ⟨?_, by simp, ?_⟩
        · refine List.Pairwise.imp_of_mem ?_ (List.Pairwise.filter _ hord)
          intro a b ha hb hab
          have ha2 : ¬ key = a := by
            intro h; subst h; simp at ha
          have hb2 : ¬ key = b := by
            intro h; subst h; simp at hb
          simpa [lastSetRev, ha2, hb2] using hab
        · intro a ha b hb
          simp only [List.mem_singleton] at hb
          subst hb
          have ha1 : a ∈ m.order := (List.mem_filter.mp ha).1
          have ha2 : ¬ b = a := by
            intro h; subst h; simp at ha
          have hsome := (hmem a).mp ha1
          obtain ⟨⟨i, v⟩, hiv⟩ := Option.isSome_iff_exists.mp hsome
          have hlt := lastSetRev_lt older a i v hiv
          exact ⟨i, older.length, by simp [lastSetRev, ha2, hiv], by simp [lastSetRev], hlt⟩
    | del key =>
      refine ⟨fun k => ?_, fun k => ?_, ?_⟩
      · by_cases hk : k = key
        · subst hk
          simp [orderMap.call, orderMap.Del, lastSetRev]
        · have hk2 : ¬ key = k := fun h => hk h.symm
          simp [orderMap.call, orderMap.Del, lastSetRev, hk, hk2, hdata]
      · by_cases hk : k = key
        · subst hk
          simp [orderMap.call, orderMap.Del, DelSliceVals, lastSetRev]
        · have hk2 : ¬ key = k := fun h => hk h.symm
          simp [orderMap.call, orderMap.Del, DelSliceVals, lastSetRev, hk, hk2, hmem]
      · simp only [orderMap.call, orderMap.Del, DelSliceVals]
        refine List.Pairwise.imp_of_mem ?_ (List.Pairwise.filter _ hord)
        intro a b ha hb hab
        have ha2 : ¬ key = a := by
          intro h; subst h; simp at ha
        have hb2 : ¬ key = b := by
          intro h; subst h; simp at hb
        simpa [lastSetRev, ha2, hb2] using hab

/-- C19: after every sequence of `Set` and `Del` calls on a map made by `NewOrderMap`,
`order` contains exactly the keys present in `data`, each once, listed by the position of
their most recent `Set`; a key is present exactly when its most recent call was a `Set`,
and `data` holds the value of that `Set`. -/
theorem orderMap_order_spec {V : Type} (calls : List (MapCall V)) :
    (∀ k, k ∈ (orderMap.run calls).order ↔ ((orderMap.run calls).data k).isSome = true) ∧
    (orderMap.run calls).order.Nodup ∧
    (∀ k, (orderMap.run calls).data k = (lastSet calls k).map fun p => p.2) ∧
    (orderMap.run calls).order.Pairwise
      (fun a b => ∃ i j, (lastSet calls a).map (fun p => p.1) = some i ∧
        (lastSet calls b).map (fun p => p.1) = some j ∧ i < j) := by
  obtain ⟨hdata, hmem, hord⟩ := orderMap_invariant calls.reverse
  rw [orderMap_run_eq]
  refine ⟨fun k => ?_, ?_, hdata, hord⟩
  · rw [hmem k, hdata k]
    simp
  · refine List.Pairwise.imp ?_ hord
    rintro a b ⟨i, j, hi, hj, hij⟩ hab
    subst hab
    rw [hi] at hj
    simp only [Option.some.injEq] at hj
    omega

/-! ### The pool counter under interleaving -/

theorem countP_set_counted (l : List ExitPc) (i : Nat) (w a : ExitPc)
    (h : l.get? i = some w) :
    (l.set i a).countP ExitPc.counted + (if w.counted then 1 else 0)
      = l.countP ExitPc.counted + (if a.counted then 1 else 0) := by
  induction l generalizing i with
  | nil => simp at h
  | cons x xs ih =>
    cases i with
    | zero =>
      simp only [List.get?_cons_zero, Option.some.injEq] at h
      subst h
      simp only [List.set_cons_zero, List.countP_cons]
      omega
    | succ n =>
      simp only [List.get?_cons_succ] at h
      have := ih n h
      simp only [List.set_cons_succ, List.countP_cons]
      omega

/-- A step of any worker keeps the counter equal to the number of workers that have not
yet decremented it. -/
theorem step_total_counted (p : PoolState) (i : Nat) (h : p.total = p.counted) :
    (p.step i).total = (p.step i).counted := by
  unfold PoolState.step
  cases hw : p.workers.get? i with
  | none => simpa using h
  | some w =>
    cases w with
    | leaving =>
      have := countP_set_counted p.workers i .leaving .connClosed hw
      simp only [PoolState.counted, ExitPc.counted, if_true] at this h ⊢
      omega
    | connClosed =>
      have := countP_set_counted p.workers i .connClosed .decremented hw
      simp only [PoolState.counted, ExitPc.counted, if_true, Bool.false_eq_true, if_false]
        at this h ⊢
      omega
    | decremented =>
      have := countP_set_counted p.workers i .decremented .gone hw
      simp only [PoolState.counted, ExitPc.counted, Bool.false_eq_true, if_false]
        at this h ⊢
      omega
    | gone => simpa using h

/-- Under every interleaving the counter stays equal to the number of workers that have
not yet decremented it, so it never goes negative. -/
theorem run_total_nonneg (p : PoolState) (schedule : List Nat) (h : p.total = p.counted) :
    (p.run schedule).total = (p.run schedule).counted ∧ 0 ≤ (p.run schedule).total := by
  have key : ∀ (schedule : List Nat) (p : PoolState), p.total = p.counted →
      (p.run schedule).total = (p.run schedule).counted := by
    intro schedule
    induction schedule with
    | nil => intro p h; simpa [PoolState.run] using h
    | cons i rest ih =>
      intro p h
      have := ih (p.step i) (step_total_counted p i h)
      simpa [PoolState.run] using this
  have h1 := key schedule p h
  exact ⟨h1, by rw [h1]; exact Int.natCast_nonneg _⟩

end Requests
